import Mathlib

/-!
Verification development for the session/sandbox lifecycle server
(`fastapi_server.py`) and its worker argument handling (`browsing_agent.py`).

The source is shallowly embedded:
* the two key/value stores (the in-process `SESSIONS` / `IP_SESSIONS` dicts
  and the Redis mirror) become association lists over `String` keys;
* the Docker daemon and the set of live worker process groups become
  explicit components of a shared state (`Shared`), since several uvicorn
  worker processes on one host share the daemon and Redis while each has
  its own in-process dicts (`Inst`);
* `/start` (`start_and_stream`, lines 195-316) is split into three phases
  matching the source's control flow, so that interleavings of concurrent
  requests can be expressed;
* the SSE generator (`stream_generator`, lines 318-389) becomes a recursive
  function over a list of per-iteration environment observations;
* the reaper (`cleanup_inactive_sessions`, lines 159-189) becomes a fold of
  one sweep over the snapshot of the local session table;
* `bash -c` word splitting (for the single-quoted payload of line 306) and
  `json.dumps`/`json.loads` (restricted to the flat string-valued objects
  the server actually ships) are modelled at the character level.

Machine-level details abstracted (and noted where they matter): timestamps
are `Nat` seconds, container ids / pids are `Nat`, host port mappings are an
opaque function of the container id.
-/

/-! ## Association-list stores -/

def setKV {α : Type} (m : List (String × α)) (k : String) (v : α) :
    List (String × α) :=
  match m with
  | [] => [(k, v)]
  | (k', v') :: rest => if k' = k then (k, v) :: rest else (k', v') :: setKV rest k v

def getKV {α : Type} (m : List (String × α)) (k : String) : Option α :=
  match m with
  | [] => none
  | (k', v) :: rest => if k' = k then some v else getKV rest k

def delKV {α : Type} (m : List (String × α)) (k : String) : List (String × α) :=
  m.filter (fun p => p.1 ≠ k)

theorem getKV_setKV_self {α : Type} (m : List (String × α)) (k : String) (v : α) :
    getKV (setKV m k v) k = some v := by
  induction m with
  | nil => simp [setKV, getKV]
  | cons p rest ih =>
    by_cases h : p.1 = k
    · simp [setKV, getKV, h]
    · simp [setKV, getKV, h, ih]

theorem getKV_setKV_ne {α : Type} (m : List (String × α)) (k k' : String) (v : α)
    (h : k' ≠ k) : getKV (setKV m k v) k' = getKV m k' := by
  induction m with
  | nil => simp [setKV, getKV, h, Ne.symm h]
  | cons p rest ih =>
    by_cases hp : p.1 = k
    · simp [setKV, getKV, hp, h, Ne.symm h]
    · simp only [setKV, if_neg hp]
      by_cases hq : p.1 = k'
      · simp [getKV, hq]
      · simp [getKV, hq, ih]

theorem getKV_delKV_self {α : Type} (m : List (String × α)) (k : String) :
    getKV (delKV m k) k = none := by
  induction m with
  | nil => simp [delKV, getKV]
  | cons p rest ih =>
    by_cases h : p.1 = k
    · simpa [delKV, h] using ih
    · simpa [delKV, getKV, h] using ih

theorem getKV_delKV_ne {α : Type} (m : List (String × α)) (k k' : String)
    (h : k' ≠ k) : getKV (delKV m k) k' = getKV m k' := by
  induction m with
  | nil => simp [delKV, getKV]
  | cons p rest ih =>
    by_cases hp : p.1 = k
    · have h1 : delKV (p :: rest) k = delKV rest k := by
        simp [delKV, List.filter_cons, hp]
      rw [h1, ih]
      have hne : p.1 ≠ k' := by rw [hp]; exact Ne.symm h
      simp [getKV, hne]
    · have h1 : delKV (p :: rest) k = p :: delKV rest k := by
        simp [delKV, List.filter_cons, hp]
      rw [h1]
      by_cases hq : p.1 = k'
      · simp [getKV, hq]
      · simp [getKV, hq, ih]

/-! ## Data model

A session record mirrors the dict documented at `fastapi_server.py` lines
24-35 and written at lines 258-268.  Timestamps are `Nat` seconds, container
ids and pids are `Nat`, host port mappings are an opaque function of the
container id (`portOf`). -/

/-- Inactivity TTL for sessions (`TIMEOUT = 300`, line 42). -/
def TIMEOUT : Nat := 300

/-- Deadline for the agent subprocess (`SUBPROCESS_TIMEOUT = 120`, line 45). -/
def SUBPROCESS_TIMEOUT : Nat := 120

structure SessionData where
  start_time : Nat
  last_active : Nat
  container_id : Nat
  cdp_port : Nat
  no_vnc_port : Nat
  vnc_port : Nat
  user_ip : String
  host_public_ip : String
  process : Option Nat
deriving Repr, DecidableEq

/-- The in-process state of one uvicorn worker: the `SESSIONS` and
`IP_SESSIONS` dicts (lines 36, 39). -/
structure Inst where
  sessions : List (String × SessionData)
  ipSessions : List (String × String)
deriving Repr, DecidableEq

/-- State shared between all server worker processes on a host: the Redis
mirror (both key families), the Docker daemon's running containers, the live
worker process groups (a pid is in `liveProcs` iff `poll()` would return
`None`), which container each worker was wired to through its `cdp_url`, and
the fresh-identifier supplies (uuid4 values and Docker ids are modelled as
counters, so fresh identifiers are distinct from all earlier ones). -/
structure Shared where
  redisSessions : List (String × SessionData)
  redisIp : List (String × String)
  containers : List Nat
  liveProcs : List Nat
  procContainer : List (Nat × Nat)
  nextContainer : Nat
  nextPid : Nat
  nextSession : Nat
  publicIp : String
deriving Repr, DecidableEq

/-- Host port published for a container port: opaque, fixed per container. -/
def portOf (cid : Nat) : Nat := cid

/-- `json.dumps` serializability of a session record: every field is a
JSON-serializable str/float/None except `process`, which holds a
`subprocess.Popen` object whenever it is not `None`; `json.dumps` raises
`TypeError` on a `Popen`. -/
def serializableRecord (d : SessionData) : Bool := d.process.isNone

/-- `set_session_data` (lines 60-65): writes the local dict, then mirrors to
Redis via `json.dumps`.  The returned flag is `false` when `json.dumps`
raises (record not serializable); the local write has already happened. -/
def set_session_data (i : Inst) (s : Shared) (sid : String) (d : SessionData) :
    Inst × Shared × Bool :=
  let i' : Inst := { i with sessions := setKV i.sessions sid d }
  if serializableRecord d then
    (i', { s with redisSessions := setKV s.redisSessions sid d }, true)
  else
    (i', s, false)

/-- `get_session_data` (lines 68-79): local dict first, else Redis with
read-through caching into the local dict. -/
def get_session_data (i : Inst) (s : Shared) (sid : String) :
    Inst × Option SessionData :=
  match getKV i.sessions sid with
  | some d => (i, some d)
  | none =>
    match getKV s.redisSessions sid with
    | some d => ({ i with sessions := setKV i.sessions sid d }, some d)
    | none => (i, none)

/-- `delete_session_data` (lines 82-84). -/
def delete_session_data (i : Inst) (s : Shared) (sid : String) : Inst × Shared :=
  ({ i with sessions := delKV i.sessions sid },
   { s with redisSessions := delKV s.redisSessions sid })

/-- `set_ip_session` (lines 87-89). -/
def set_ip_session (i : Inst) (s : Shared) (ip sid : String) : Inst × Shared :=
  ({ i with ipSessions := setKV i.ipSessions ip sid },
   { s with redisIp := setKV s.redisIp ip sid })

/-- `get_ip_session` (lines 92-102): local dict first, else Redis with
read-through caching. -/
def get_ip_session (i : Inst) (s : Shared) (ip : String) : Inst × Option String :=
  match getKV i.ipSessions ip with
  | some sid => (i, some sid)
  | none =>
    match getKV s.redisIp ip with
    | some sid => ({ i with ipSessions := setKV i.ipSessions ip sid }, some sid)
    | none => (i, none)

/-- `delete_ip_session` (lines 105-107). -/
def delete_ip_session (i : Inst) (s : Shared) (ip : String) : Inst × Shared :=
  ({ i with ipSessions := delKV i.ipSessions ip },
   { s with redisIp := delKV s.redisIp ip })

/-! ## `/start`: resolve, create, spawn

`start_and_stream` (lines 195-316) is split at its two natural seams:
lines 200-228 (resolve the owner mapping, reuse or tear down), lines
229-287 (create a fresh container and records, or refresh the reused ones),
lines 289-316 (kill a stale worker, spawn the new one, store the handle).
Observable side effects on Docker and processes are recorded in a trace. -/

inductive Act where
  | containerRun (cid : Nat)
  | containerStop (cid : Nat)
  | containerRemove (cid : Nat)
  | killpg (pid : Nat)
  | spawn (pid : Nat)
deriving Repr, DecidableEq

inductive ResolveOut where
  | reuse (sid : String)
  | fresh
  | raised (msg : String)
deriving Repr, DecidableEq

/-- Lines 200-228.  On a mapped, fresh-enough session the record's
`last_active` is refreshed and written back (line 215) — a write that raises
when the record still holds a process handle; on a stale session the
container is stopped and removed and both records deleted; line 212's
`docker_client.containers.get` is not wrapped in `try`, so a missing
container aborts the request. -/
def phase_resolve (i : Inst) (s : Shared) (ip : String) (now : Nat) :
    Inst × Shared × List Act × ResolveOut :=
  match get_ip_session i s ip with
  | (i₁, none) => (i₁, s, [], ResolveOut.fresh)
  | (i₁, some sid) =>
    match get_session_data i₁ s sid with
    | (i₂, none) => (i₂, s, [], ResolveOut.fresh)
    | (i₂, some d) =>
      if now - d.last_active < TIMEOUT then
        if d.container_id ∈ s.containers then
          let d' := { d with last_active := now }
          match set_session_data i₂ s sid d' with
          | (i₃, s₁, true) => (i₃, s₁, [], ResolveOut.reuse sid)
          | (i₃, s₁, false) =>
            (i₃, s₁, [], ResolveOut.raised ("TypeError: Popen not serializable"))
        else
          (i₂, s, [], ResolveOut.raised ("docker.errors.NotFound"))
      else
        let teardown :=
          if d.container_id ∈ s.containers then
            ([Act.containerStop d.container_id, Act.containerRemove d.container_id],
             { s with containers := s.containers.erase d.container_id })
          else
            (([] : List Act), s)
        let (i₃, s₂) := delete_session_data i₂ teardown.2 sid
        let (i₄, s₃) := delete_ip_session i₃ s₂ ip
        (i₄, s₃, teardown.1, ResolveOut.fresh)

inductive CreateOut where
  | ok (sid : String)
  | raised (msg : String)
deriving Repr, DecidableEq

/-- Lines 229-287.  A fresh session gets a uuid, a newly run container, and
a record with `process = None` (lines 258-270); a reused one has its ports
re-read and its record refreshed (lines 271-287). -/
def phase_create (i : Inst) (s : Shared) (ip : String) (now : Nat) :
    ResolveOut → Inst × Shared × List Act × CreateOut
  | ResolveOut.raised m => (i, s, [], CreateOut.raised m)
  | ResolveOut.fresh =>
    let sid := "uuid-" ++ toString s.nextSession
    let cid := s.nextContainer
    let s₁ := { s with nextSession := s.nextSession + 1, nextContainer := cid + 1,
                       containers := s.containers ++ [cid] }
    let d : SessionData :=
      { start_time := now, last_active := now, container_id := cid,
        cdp_port := portOf cid, no_vnc_port := portOf cid, vnc_port := portOf cid,
        user_ip := ip, host_public_ip := s.publicIp, process := none }
    let r := set_session_data i s₁ sid d
    let (i₂, s₃) := set_ip_session r.1 r.2.1 ip sid
    (i₂, s₃, [Act.containerRun cid], CreateOut.ok sid)
  | ResolveOut.reuse sid =>
    match get_session_data i s sid with
    | (i₁, none) => (i₁, s, [], CreateOut.raised ("TypeError: NoneType"))
    | (i₁, some d) =>
      let d' := { d with last_active := now,
                         cdp_port := portOf d.container_id,
                         no_vnc_port := portOf d.container_id,
                         vnc_port := portOf d.container_id }
      match set_session_data i₁ s sid d' with
      | (i₂, s₁, true) => (i₂, s₁, [], CreateOut.ok sid)
      | (i₂, s₁, false) =>
        (i₂, s₁, [], CreateOut.raised ("TypeError: Popen not serializable"))

inductive StartOutcome where
  | streaming (sid : String) (pid : Nat)
  | raised (msg : String)
deriving Repr, DecidableEq

/-- Lines 289-316.  If the record references a still-running old worker
(`poll() is None`), its whole process group is SIGKILLed (lines 294-301);
then the new worker is spawned in its own process group wired to this
session's container, and the record — now holding the live `Popen` — is
written back (lines 315-316).  That final write's Redis mirror goes through
`json.dumps`, which raises on the handle, so `.streaming` is only returned
when the mirror write succeeds. -/
def phase_spawn (i : Inst) (s : Shared) (sid : String) :
    Inst × Shared × List Act × StartOutcome :=
  match get_session_data i s sid with
  | (i₁, none) => (i₁, s, [], StartOutcome.raised ("KeyError"))
  | (i₁, some d) =>
    let killStep :=
      match d.process with
      | some p =>
        if p ∈ s.liveProcs then
          ([Act.killpg p], { s with liveProcs := s.liveProcs.erase p })
        else
          (([] : List Act), s)
      | none => (([] : List Act), s)
    let s₁ := killStep.2
    let pid := s₁.nextPid
    let s₂ := { s₁ with nextPid := pid + 1,
                        liveProcs := s₁.liveProcs ++ [pid],
                        procContainer := s₁.procContainer ++ [(pid, d.container_id)] }
    let d' := { d with process := some pid }
    match set_session_data i₁ s₂ sid d' with
    | (i₂, s₃, true) =>
      (i₂, s₃, killStep.1 ++ [Act.spawn pid], StartOutcome.streaming sid pid)
    | (i₂, s₃, false) =>
      (i₂, s₃, killStep.1 ++ [Act.spawn pid],
       StartOutcome.raised ("TypeError: Popen not serializable"))

/-- The whole `/start` request body up to returning the `StreamingResponse`
(lines 195-316), as executed by one server worker process. -/
def start_request (i : Inst) (s : Shared) (ip : String) (now : Nat) :
    Inst × Shared × List Act × StartOutcome :=
  let r := phase_resolve i s ip now
  let c := phase_create r.1 r.2.1 ip now r.2.2.2
  match c.2.2.2 with
  | CreateOut.raised m => (c.1, c.2.1, r.2.2.1 ++ c.2.2.1, StartOutcome.raised m)
  | CreateOut.ok sid =>
    let sp := phase_spawn c.1 c.2.1 sid
    (sp.1, sp.2.1, r.2.2.1 ++ c.2.2.1 ++ sp.2.2.1, sp.2.2.2)

/-! ## The SSE stream generator

`stream_generator` (lines 318-389) runs one loop iteration per element of
an input list of environment observations (`Iter`): whether the
`last_active` refresh write raised (its Redis mirror raises `TypeError`
whenever the local record holds the `Popen`, and can also fail on
connectivity — the raise is therefore an input), whether
`request.is_disconnected()` returned true, which of the two `readline`
tasks completed within the `asyncio.wait` window, the iteration order of
the returned `done` *set* when both completed (Python set iteration order
is unspecified), whether a cancelled pending read thread consumed (and so
dropped) a line, whether `os.killpg` raised, whether the 120s deadline had
elapsed, and whether `process.poll()` reported an exit.

Worker output is modelled as one pending-line queue per channel; a ready
`readline` pops the head (an empty string means EOF and is not yielded,
line 357's `if line:`).  Yields and kill actions are recorded as events;
`Ev.kill` marks the `os.killpg(..., SIGKILL)` call on the worker's process
group. -/

structure Iter where
  storeRaises : Bool
  disconnected : Bool
  stdoutReady : Bool
  stderrReady : Bool
  stdoutFirst : Bool
  dropStdout : Bool
  dropStderr : Bool
  killRaises : Bool
  timedOut : Bool
  exited : Bool
deriving Repr, DecidableEq

inductive Ev where
  | info (s : String)
  | out (s : String)
  | err (s : String)
  | kill
  | close
deriving Repr, DecidableEq

/-- The generator's local view of the session record: the two pipe queues
and the stored `process` reference (nulled by the `finally` of line 382). -/
structure SState where
  outQ : List String
  errQ : List String
  proc : Option Nat
deriving Repr, DecidableEq

def discMsg : String := "Client disconnected. Killing subprocess."

def killErrDiscMsg : String := "Error killing subprocess"

def timeoutMsg : String := "Subprocess timed out after 120s. Killing!"

def killErrTimeoutMsg : String := "Error forcibly killing agent"

def finishedMsg : String := "Subprocess finished."

/-- The `try: os.killpg(...) except: yield error` block (lines 334-337 and
367-370): the SIGKILL call is made, and when it raises the exception text is
yielded as a data line. -/
def killBlock (killRaises : Bool) (errMsg : String) : List Ev :=
  Ev.kill :: (if killRaises then [Ev.info errMsg] else [])

/-- One non-blocking `readline` attempt on one channel (lines 342-362): if
the task completed, the next buffered line is consumed and yielded unless
empty; if it stayed pending and was cancelled while its thread had started a
read, that line is consumed and discarded. -/
def readChan (ready dropped : Bool) (q : List String) (mk : String → Ev) :
    List Ev × List String :=
  if ready then
    match q with
    | [] => ([], [])
    | l :: rest => ((if l = "" then [] else [mk l]), rest)
  else if dropped then
    ([], q.tail)
  else
    ([], q)

/-- The `for task in done` emission of one iteration (lines 349-362): when
both tasks completed, the unordered `done` set yields them in either order
(`stdoutFirst`). -/
def iterReads (it : Iter) (outQ errQ : List String) :
    List Ev × List String × List String :=
  let o := readChan it.stdoutReady it.dropStdout outQ Ev.out
  let e := readChan it.stderrReady it.dropStderr errQ Ev.err
  ((if it.stdoutReady && it.stderrReady && !it.stdoutFirst
    then e.1 ++ o.1 else o.1 ++ e.1),
   o.2, e.2)

inductive Outcome where
  | completed
  | timedOut
  | disconnected
  | raised
  | fuelOut
deriving Repr, DecidableEq

/-- The `while True` loop of lines 324-380, one `Iter` per iteration, in the
source's order: refresh `last_active` (a raise propagates out of the
generator), check disconnection, read both channels, check the 120s
deadline, check `poll()`.  `fuelOut` means the observation list ended with
the loop still running. -/
def streamLoop : List Iter → SState → List Ev × SState × Outcome
  | [], st => ([], st, Outcome.fuelOut)
  | it :: rest, st =>
    if it.storeRaises then
      ([], st, Outcome.raised)
    else if it.disconnected then
      (Ev.info discMsg :: (killBlock it.killRaises killErrDiscMsg ++ [Ev.close]),
       st, Outcome.disconnected)
    else
      let rd := iterReads it st.outQ st.errQ
      let st' : SState := { st with outQ := rd.2.1, errQ := rd.2.2 }
      if it.timedOut then
        (rd.1 ++ (Ev.info timeoutMsg ::
           (killBlock it.killRaises killErrTimeoutMsg ++ [Ev.close])),
         st', Outcome.timedOut)
      else if it.exited then
        (rd.1 ++ [Ev.info finishedMsg, Ev.close], st', Outcome.completed)
      else
        let r := streamLoop rest st'
        (rd.1 ++ r.1, r.2)

/-- `stream_generator` (lines 318-389): the two header lines, the loop, and
the `finally` block that nulls the stored process reference (lines 382-386;
that write's record has `process = None` and so serializes). -/
def stream_generator (sid cname cdp : String) (iters : List Iter) (st : SState) :
    List Ev × SState × Outcome :=
  let r := streamLoop iters st
  (Ev.info ("Session started with ID: " ++ sid ++ ". Container: " ++ cname) ::
     Ev.info ("cdp_url: " ++ cdp) :: r.1,
   { r.2.1 with proc := none }, r.2.2)

/-- The SSE frames actually sent to the caller: every event except the
`os.killpg` action. -/
def isYield : Ev → Bool
  | Ev.kill => false
  | _ => true

def sse (evs : List Ev) : List Ev := evs.filter isYield

def isRead : Ev → Bool
  | Ev.out _ => true
  | Ev.err _ => true
  | _ => false

/-- Worker stdout lines among the emitted events, in emission order. -/
def outLines (evs : List Ev) : List String :=
  evs.filterMap (fun e => match e with | Ev.out s => some s | _ => none)

/-- Worker stderr lines among the emitted events, in emission order. -/
def errLines (evs : List Ev) : List String :=
  evs.filterMap (fun e => match e with | Ev.err s => some s | _ => none)

/-- The block of events a terminating iteration appends, by terminal cause
(`kr`: whether `os.killpg` raised there). -/
def termBlock : Outcome → Bool → List Ev
  | Outcome.completed, _ => [Ev.info finishedMsg, Ev.close]
  | Outcome.timedOut, kr =>
    Ev.info timeoutMsg :: (killBlock kr killErrTimeoutMsg ++ [Ev.close])
  | Outcome.disconnected, kr =>
    Ev.info discMsg :: (killBlock kr killErrDiscMsg ++ [Ev.close])
  | Outcome.raised, _ => []
  | Outcome.fuelOut, _ => []

theorem readChan_isRead (ready dropped : Bool) (q : List String)
    (mk : String → Ev) (hmk : ∀ s, isRead (mk s) = true) :
    ∀ e ∈ (readChan ready dropped q mk).1, isRead e = true := by
  intro e he
  unfold readChan at he
  split at he
  · match q with
    | [] => simp at he
    | l :: rest =>
      simp only at he
      split at he
      · simp at he
      · simp at he; subst he; exact hmk l
  · split at he <;> simp at he

theorem iterReads_isRead (it : Iter) (outQ errQ : List String) :
    ∀ e ∈ (iterReads it outQ errQ).1, isRead e = true := by
  intro e he
  have ho := readChan_isRead it.stdoutReady it.dropStdout outQ Ev.out
    (fun _ => rfl)
  have herr := readChan_isRead it.stderrReady it.dropStderr errQ Ev.err
    (fun _ => rfl)
  unfold iterReads at he
  simp only at he
  split at he <;> rcases List.mem_append.mp he with h | h
  · exact herr e h
  · exact ho e h
  · exact ho e h
  · exact herr e h

/-- Shape of every run of the loop: some channel-read events, then the
terminal block of its outcome. -/
theorem streamLoop_shape (iters : List Iter) (st : SState) :
    ∃ pre kr, (streamLoop iters st).1 = pre ++ termBlock (streamLoop iters st).2.2 kr ∧
      ∀ e ∈ pre, isRead e = true := by
  induction iters generalizing st with
  | nil => exact ⟨[], false, rfl, by simp⟩
  | cons it rest ih =>
    by_cases h1 : it.storeRaises
    · refine ⟨[], false, ?_, by simp⟩
      simp [streamLoop, h1, termBlock]
    · by_cases h2 : it.disconnected
      · refine ⟨[], it.killRaises, ?_, by simp⟩
        simp [streamLoop, h1, h2, termBlock]
      · by_cases h3 : it.timedOut
        · refine ⟨(iterReads it st.outQ st.errQ).1, it.killRaises, ?_,
            iterReads_isRead it st.outQ st.errQ⟩
          simp [streamLoop, h1, h2, h3, termBlock]
        · by_cases h4 : it.exited
          · refine ⟨(iterReads it st.outQ st.errQ).1, false, ?_,
              iterReads_isRead it st.outQ st.errQ⟩
            simp [streamLoop, h1, h2, h3, h4, termBlock]
          · obtain ⟨pre, kr, heq, hpre⟩ :=
              ih { st with outQ := (iterReads it st.outQ st.errQ).2.1,
                           errQ := (iterReads it st.outQ st.errQ).2.2 }
            refine ⟨(iterReads it st.outQ st.errQ).1 ++ pre, kr, ?_, ?_⟩
            · simp only [streamLoop, if_neg h1, if_neg h2, if_neg h3, if_neg h4]
              rw [List.append_assoc, ← heq]
            · intro e he
              rcases List.mem_append.mp he with h | h
              · exact iterReads_isRead it st.outQ st.errQ e h
              · exact hpre e h

theorem isRead_isYield (e : Ev) (h : isRead e = true) : isYield e = true := by
  cases e <;> simp_all [isRead, isYield]

theorem outLines_append (a b : List Ev) :
    outLines (a ++ b) = outLines a ++ outLines b := by
  simp [outLines, List.filterMap_append]

theorem errLines_append (a b : List Ev) :
    errLines (a ++ b) = errLines a ++ errLines b := by
  simp [errLines, List.filterMap_append]

theorem outLines_readChan_err (ready dropped : Bool) (q : List String) :
    outLines (readChan ready dropped q Ev.err).1 = [] := by
  unfold readChan
  split
  · match q with
    | [] => rfl
    | l :: rest => simp only; split <;> rfl
  · split <;> rfl

theorem errLines_readChan_out (ready dropped : Bool) (q : List String) :
    errLines (readChan ready dropped q Ev.out).1 = [] := by
  unfold readChan
  split
  · match q with
    | [] => rfl
    | l :: rest => simp only; split <;> rfl
  · split <;> rfl

theorem readChan_out_consume (ready dropped : Bool) (q : List String) :
    ∃ pre, q = pre ++ (readChan ready dropped q Ev.out).2 ∧
      List.Sublist (outLines (readChan ready dropped q Ev.out).1) pre := by
  unfold readChan
  split
  · match q with
    | [] => exact ⟨[], rfl, by simp [outLines]⟩
    | l :: rest =>
      refine ⟨[l], rfl, ?_⟩
      simp only
      split
      · simp [outLines]
      · simp [outLines]
  · split
    · match q with
      | [] => exact ⟨[], rfl, by simp [outLines]⟩
      | l :: rest => exact ⟨[l], rfl, by simp [outLines]⟩
    · exact ⟨[], rfl, by simp [outLines]⟩

theorem readChan_err_consume (ready dropped : Bool) (q : List String) :
    ∃ pre, q = pre ++ (readChan ready dropped q Ev.err).2 ∧
      List.Sublist (errLines (readChan ready dropped q Ev.err).1) pre := by
  unfold readChan
  split
  · match q with
    | [] => exact ⟨[], rfl, by simp [errLines]⟩
    | l :: rest =>
      refine ⟨[l], rfl, ?_⟩
      simp only
      split
      · simp [errLines]
      · simp [errLines]
  · split
    · match q with
      | [] => exact ⟨[], rfl, by simp [errLines]⟩
      | l :: rest => exact ⟨[l], rfl, by simp [errLines]⟩
    · exact ⟨[], rfl, by simp [errLines]⟩

theorem iterReads_out_consume (it : Iter) (outQ errQ : List String) :
    ∃ pre, outQ = pre ++ (iterReads it outQ errQ).2.1 ∧
      List.Sublist (outLines (iterReads it outQ errQ).1) pre := by
  obtain ⟨pre, hq, hs⟩ := readChan_out_consume it.stdoutReady it.dropStdout outQ
  refine ⟨pre, hq, ?_⟩
  unfold iterReads
  simp only
  split
  · rw [outLines_append, outLines_readChan_err]
    simpa using hs
  · rw [outLines_append, outLines_readChan_err]
    simpa using hs

theorem iterReads_err_consume (it : Iter) (outQ errQ : List String) :
    ∃ pre, errQ = pre ++ (iterReads it outQ errQ).2.2 ∧
      List.Sublist (errLines (iterReads it outQ errQ).1) pre := by
  obtain ⟨pre, hq, hs⟩ := readChan_err_consume it.stderrReady it.dropStderr errQ
  refine ⟨pre, hq, ?_⟩
  unfold iterReads
  simp only
  split
  · rw [errLines_append, errLines_readChan_out]
    simpa using hs
  · rw [errLines_append, errLines_readChan_out]
    simpa using hs

theorem outLines_termBlock (oc : Outcome) (kr : Bool) :
    outLines (termBlock oc kr) = [] := by
  cases oc <;> cases kr <;> rfl

theorem errLines_termBlock (oc : Outcome) (kr : Bool) :
    errLines (termBlock oc kr) = [] := by
  cases oc <;> cases kr <;> rfl

/-- Per-channel order preservation over a whole run: the stdout lines the
loop emits form an order-preserving selection from the pending stdout
queue, and likewise for stderr. -/
theorem streamLoop_out_sublist (iters : List Iter) (st : SState) :
    List.Sublist (outLines (streamLoop iters st).1) st.outQ ∧
      List.Sublist (errLines (streamLoop iters st).1) st.errQ := by
  induction iters generalizing st with
  | nil => simp [streamLoop, outLines, errLines]
  | cons it rest ih =>
    obtain ⟨po, hpo, hso⟩ := iterReads_out_consume it st.outQ st.errQ
    obtain ⟨pe, hpe, hse⟩ := iterReads_err_consume it st.outQ st.errQ
    have hpoSub : List.Sublist po st.outQ := by
      rw [hpo]; exact List.sublist_append_left po _
    have hpeSub : List.Sublist pe st.errQ := by
      rw [hpe]; exact List.sublist_append_left pe _
    have hTimeoutNilO : outLines (Ev.info timeoutMsg ::
        (killBlock it.killRaises killErrTimeoutMsg ++ [Ev.close])) = [] := by
      cases it.killRaises <;> simp [outLines, killBlock]
    have hTimeoutNilE : errLines (Ev.info timeoutMsg ::
        (killBlock it.killRaises killErrTimeoutMsg ++ [Ev.close])) = [] := by
      cases it.killRaises <;> simp [errLines, killBlock]
    by_cases h1 : it.storeRaises
    · simp [streamLoop, h1, outLines, errLines]
    · by_cases h2 : it.disconnected
      · constructor
        · have : outLines (Ev.info discMsg ::
              (killBlock it.killRaises killErrDiscMsg ++ [Ev.close])) = [] := by
            cases it.killRaises <;> simp [outLines, killBlock]
          simp only [streamLoop, if_neg h1, if_pos h2, this]
          exact List.nil_sublist _
        · have : errLines (Ev.info discMsg ::
              (killBlock it.killRaises killErrDiscMsg ++ [Ev.close])) = [] := by
            cases it.killRaises <;> simp [errLines, killBlock]
          simp only [streamLoop, if_neg h1, if_pos h2, this]
          exact List.nil_sublist _
      · by_cases h3 : it.timedOut
        · constructor
          · simp only [streamLoop, if_neg h1, if_neg h2, if_pos h3]
            rw [outLines_append, hTimeoutNilO, List.append_nil]
            exact hso.trans hpoSub
          · simp only [streamLoop, if_neg h1, if_neg h2, if_pos h3]
            rw [errLines_append, hTimeoutNilE, List.append_nil]
            exact hse.trans hpeSub
        · by_cases h4 : it.exited
          · constructor
            · simp only [streamLoop, if_neg h1, if_neg h2, if_neg h3, if_pos h4]
              rw [outLines_append]
              have : outLines [Ev.info finishedMsg, Ev.close] = [] := by
                simp [outLines]
              rw [this, List.append_nil]
              exact hso.trans hpoSub
            · simp only [streamLoop, if_neg h1, if_neg h2, if_neg h3, if_pos h4]
              rw [errLines_append]
              have : errLines [Ev.info finishedMsg, Ev.close] = [] := by
                simp [errLines]
              rw [this, List.append_nil]
              exact hse.trans hpeSub
          · obtain ⟨iho, ihe⟩ :=
              ih { st with outQ := (iterReads it st.outQ st.errQ).2.1,
                           errQ := (iterReads it st.outQ st.errQ).2.2 }
            constructor
            · simp only [streamLoop, if_neg h1, if_neg h2, if_neg h3, if_neg h4]
              rw [outLines_append]
              have hcomb := List.Sublist.append hso iho
              rw [← hpo] at hcomb
              exact hcomb
            · simp only [streamLoop, if_neg h1, if_neg h2, if_neg h3, if_neg h4]
              rw [errLines_append]
              have hcomb := List.Sublist.append hse ihe
              rw [← hpe] at hcomb
              exact hcomb

/-! ## The Reaper

`cleanup_inactive_sessions` (lines 159-189) sleeps 60s between sweeps; one
sweep iterates over a snapshot of the local `SESSIONS` dict, and for every
record idle longer than `TIMEOUT` stops and removes its container (errors
swallowed by the bare `except`), deletes the session record from both
stores, and deletes the owner mapping when it still points at this session.
`rf cid` says whether `container.stop()` raises for that container (e.g. a
Docker error): the deletions run regardless, only the stop/remove effect
differs. -/

def reapOne (rf : Nat → Bool) (now : Nat) (acc : Inst × Shared × List Act)
    (e : String × SessionData) : Inst × Shared × List Act :=
  if now - e.2.last_active > TIMEOUT then
    let step :=
      if e.2.container_id ∈ acc.2.1.containers then
        if rf e.2.container_id then
          (acc.2.2 ++ [Act.containerStop e.2.container_id], acc.2.1)
        else
          (acc.2.2 ++ [Act.containerStop e.2.container_id,
                       Act.containerRemove e.2.container_id],
           { acc.2.1 with containers := acc.2.1.containers.erase e.2.container_id })
      else
        (acc.2.2, acc.2.1)
    let d1 := delete_session_data acc.1 step.2 e.1
    match get_ip_session d1.1 d1.2 e.2.user_ip with
    | (i₂, some sid') =>
      if sid' = e.1 then
        let d2 := delete_ip_session i₂ d1.2 e.2.user_ip
        (d2.1, d2.2, step.1)
      else
        (i₂, d1.2, step.1)
    | (i₂, none) => (i₂, d1.2, step.1)
  else
    acc

/-- One sweep of the reaper loop, at wall-clock `now` (line 166). -/
def cleanup_sweep (rf : Nat → Bool) (i : Inst) (s : Shared) (now : Nat) :
    Inst × Shared × List Act :=
  i.sessions.foldl (reapOne rf now) (i, s, [])

theorem getKV_delKV_none {α : Type} (m : List (String × α)) (k x : String)
    (h : getKV m x = none) : getKV (delKV m k) x = none := by
  by_cases hk : x = k
  · rw [hk]; exact getKV_delKV_self m k
  · rw [getKV_delKV_ne m k x hk]; exact h

/-- Sweeping an entry of another session (different key, different
container) does not disturb the owner mapping, the container, or the stop
count of the session under observation. -/
theorem reapOne_preserves_pre (rf : Nat → Bool) (now cid : Nat) (sid u : String)
    (acc : Inst × Shared × List Act) (e : String × SessionData)
    (hek : e.1 ≠ sid) (hec : e.2.container_id ≠ cid)
    (h1 : getKV acc.1.ipSessions u = some sid)
    (h2 : cid ∈ acc.2.1.containers)
    (h3 : (acc.2.2).count (Act.containerStop cid) = 0) :
    getKV (reapOne rf now acc e).1.ipSessions u = some sid ∧
    cid ∈ (reapOne rf now acc e).2.1.containers ∧
    ((reapOne rf now acc e).2.2).count (Act.containerStop cid) = 0 := by
  unfold reapOne
  by_cases hstale : now - e.2.last_active > TIMEOUT
  · simp only [if_pos hstale]
    have hstop : ∀ l : List Act, l.count (Act.containerStop cid) = 0 →
        (l ++ [Act.containerStop e.2.container_id]).count (Act.containerStop cid) = 0 ∧
        (l ++ [Act.containerStop e.2.container_id,
               Act.containerRemove e.2.container_id]).count (Act.containerStop cid) = 0 := by
      intro l hl
      constructor <;>
        simp [List.count_append, hl, List.count_cons, Ne.symm hec]
    -- the shared-state/acts part of the step
    by_cases hcm : e.2.container_id ∈ acc.2.1.containers
    · by_cases hrf : rf e.2.container_id
      · simp only [if_pos hcm, if_pos hrf]
        by_cases huu : e.2.user_ip = u
        · rw [huu]
          simp only [get_ip_session, delete_session_data, h1]
          rw [if_neg (by rw [huu] at *; exact fun hc => hek (hc.symm ▸ rfl))]
          exact ⟨h1, h2, (hstop _ h3).1⟩
        · cases hgi : getKV acc.1.ipSessions e.2.user_ip with
          | some sid' =>
            simp only [get_ip_session, delete_session_data, hgi]
            by_cases hse : sid' = e.1
            · simp only [if_pos hse, delete_ip_session]
              refine ⟨?_, h2, (hstop _ h3).1⟩
              rw [getKV_delKV_ne _ _ _ (fun hh => huu hh.symm)]
              exact h1
            · simp only [if_neg hse]
              exact ⟨h1, h2, (hstop _ h3).1⟩
          | none =>
            cases hgr : getKV acc.2.1.redisIp e.2.user_ip with
            | some sid' =>
              simp only [get_ip_session, delete_session_data, hgi, hgr]
              by_cases hse : sid' = e.1
              · simp only [if_pos hse, delete_ip_session]
                refine ⟨?_, h2, (hstop _ h3).1⟩
                rw [getKV_delKV_ne _ _ _ (fun hh => huu hh.symm)]
                rw [getKV_setKV_ne _ _ _ _ (fun hh => huu hh.symm)]
                exact h1
              · simp only [if_neg hse]
                refine ⟨?_, h2, (hstop _ h3).1⟩
                rw [getKV_setKV_ne _ _ _ _ (fun hh => huu hh.symm)]
                exact h1
            | none =>
              simp only [get_ip_session, delete_session_data, hgi, hgr]
              exact ⟨h1, h2, (hstop _ h3).1⟩
      · simp only [if_pos hcm, if_neg hrf]
        have h2e : cid ∈ acc.2.1.containers.erase e.2.container_id :=
          (List.mem_erase_of_ne (Ne.symm hec)).mpr h2
        by_cases huu : e.2.user_ip = u
        · rw [huu]
          simp only [get_ip_session, delete_session_data, h1]
          rw [if_neg (by rw [huu] at *; exact fun hc => hek (hc.symm ▸ rfl))]
          exact ⟨h1, h2e, (hstop _ h3).2⟩
        · cases hgi : getKV acc.1.ipSessions e.2.user_ip with
          | some sid' =>
            simp only [get_ip_session, delete_session_data, hgi]
            by_cases hse : sid' = e.1
            · simp only [if_pos hse, delete_ip_session]
              refine ⟨?_, h2e, (hstop _ h3).2⟩
              rw [getKV_delKV_ne _ _ _ (fun hh => huu hh.symm)]
              exact h1
            · simp only [if_neg hse]
              exact ⟨h1, h2e, (hstop _ h3).2⟩
          | none =>
            cases hgr : getKV acc.2.1.redisIp e.2.user_ip with
            | some sid' =>
              simp only [get_ip_session, delete_session_data, hgi, hgr]
              by_cases hse : sid' = e.1
              · simp only [if_pos hse, delete_ip_session]
                refine ⟨?_, h2e, (hstop _ h3).2⟩
                rw [getKV_delKV_ne _ _ _ (fun hh => huu hh.symm)]
                rw [getKV_setKV_ne _ _ _ _ (fun hh => huu hh.symm)]
                exact h1
              · simp only [if_neg hse]
                refine ⟨?_, h2e, (hstop _ h3).2⟩
                rw [getKV_setKV_ne _ _ _ _ (fun hh => huu hh.symm)]
                exact h1
            | none =>
              simp only [get_ip_session, delete_session_data, hgi, hgr]
              exact ⟨h1, h2e, (hstop _ h3).2⟩
    · simp only [if_neg hcm]
      by_cases huu : e.2.user_ip = u
      · rw [huu]
        simp only [get_ip_session, delete_session_data, h1]
        rw [if_neg (by rw [huu] at *; exact fun hc => hek (hc.symm ▸ rfl))]
        exact ⟨h1, h2, h3⟩
      · cases hgi : getKV acc.1.ipSessions e.2.user_ip with
        | some sid' =>
          simp only [get_ip_session, delete_session_data, hgi]
          by_cases hse : sid' = e.1
          · simp only [if_pos hse, delete_ip_session]
            refine ⟨?_, h2, h3⟩
            rw [getKV_delKV_ne _ _ _ (fun hh => huu hh.symm)]
            exact h1
          · simp only [if_neg hse]
            exact ⟨h1, h2, h3⟩
        | none =>
          cases hgr : getKV acc.2.1.redisIp e.2.user_ip with
          | some sid' =>
            simp only [get_ip_session, delete_session_data, hgi, hgr]
            by_cases hse : sid' = e.1
            · simp only [if_pos hse, delete_ip_session]
              refine ⟨?_, h2, h3⟩
              rw [getKV_delKV_ne _ _ _ (fun hh => huu hh.symm)]
              rw [getKV_setKV_ne _ _ _ _ (fun hh => huu hh.symm)]
              exact h1
            · simp only [if_neg hse]
              refine ⟨?_, h2, h3⟩
              rw [getKV_setKV_ne _ _ _ _ (fun hh => huu hh.symm)]
              exact h1
          | none =>
            simp only [get_ip_session, delete_session_data, hgi, hgr]
            exact ⟨h1, h2, h3⟩
  · simp only [if_neg hstale]
    exact ⟨h1, h2, h3⟩


/-- After the stale session has been processed, sweeping further entries
(all of other containers) keeps its records deleted, its owner mapping
deleted, and its stop count at one. -/
theorem reapOne_preserves_post (rf : Nat → Bool) (now cid : Nat) (sid u : String)
    (acc : Inst × Shared × List Act) (e : String × SessionData)
    (hec : e.2.container_id ≠ cid)
    (p1 : getKV acc.1.sessions sid = none)
    (p2 : getKV acc.2.1.redisSessions sid = none)
    (p3 : (acc.2.2).count (Act.containerStop cid) = 1)
    (p4 : getKV acc.1.ipSessions u = none)
    (p5 : getKV acc.2.1.redisIp u = none) :
    getKV (reapOne rf now acc e).1.sessions sid = none ∧
    getKV (reapOne rf now acc e).2.1.redisSessions sid = none ∧
    ((reapOne rf now acc e).2.2).count (Act.containerStop cid) = 1 ∧
    getKV (reapOne rf now acc e).1.ipSessions u = none ∧
    getKV (reapOne rf now acc e).2.1.redisIp u = none := by
  unfold reapOne
  by_cases hstale : now - e.2.last_active > TIMEOUT
  · simp only [if_pos hstale]
    have hstop : ∀ l : List Act, l.count (Act.containerStop cid) = 1 →
        (l ++ [Act.containerStop e.2.container_id]).count (Act.containerStop cid) = 1 ∧
        (l ++ [Act.containerStop e.2.container_id,
               Act.containerRemove e.2.container_id]).count (Act.containerStop cid) = 1 := by
      intro l hl
      constructor <;>
        simp [List.count_append, hl, List.count_cons, Ne.symm hec]
    by_cases hcm : e.2.container_id ∈ acc.2.1.containers
    · by_cases hrf : rf e.2.container_id
      · simp only [if_pos hcm, if_pos hrf]
        by_cases huu : e.2.user_ip = u
        · rw [huu]
          simp only [get_ip_session, delete_session_data, p4, p5]
          exact ⟨getKV_delKV_none _ _ _ p1, getKV_delKV_none _ _ _ p2,
                 (hstop _ p3).1, trivial, trivial⟩
        · cases hgi : getKV acc.1.ipSessions e.2.user_ip with
          | some sid' =>
            simp only [get_ip_session, delete_session_data, hgi]
            by_cases hse : sid' = e.1
            · simp only [if_pos hse, delete_ip_session]
              refine ⟨getKV_delKV_none _ _ _ p1, getKV_delKV_none _ _ _ p2,
                      (hstop _ p3).1, ?_, ?_⟩
              · exact getKV_delKV_none _ _ _ p4
              · exact getKV_delKV_none _ _ _ p5
            · simp only [if_neg hse]
              exact ⟨getKV_delKV_none _ _ _ p1, getKV_delKV_none _ _ _ p2,
                     (hstop _ p3).1, p4, p5⟩
          | none =>
            cases hgr : getKV acc.2.1.redisIp e.2.user_ip with
            | some sid' =>
              simp only [get_ip_session, delete_session_data, hgi, hgr]
              by_cases hse : sid' = e.1
              · simp only [if_pos hse, delete_ip_session]
                refine ⟨getKV_delKV_none _ _ _ p1, getKV_delKV_none _ _ _ p2,
                        (hstop _ p3).1, ?_, ?_⟩
                · apply getKV_delKV_none
                  rw [getKV_setKV_ne _ _ _ _ (fun hh => huu hh.symm)]
                  exact p4
                · exact getKV_delKV_none _ _ _ p5
              · simp only [if_neg hse]
                refine ⟨getKV_delKV_none _ _ _ p1, getKV_delKV_none _ _ _ p2,
                        (hstop _ p3).1, ?_, p5⟩
                rw [getKV_setKV_ne _ _ _ _ (fun hh => huu hh.symm)]
                exact p4
            | none =>
              simp only [get_ip_session, delete_session_data, hgi, hgr]
              exact ⟨getKV_delKV_none _ _ _ p1, getKV_delKV_none _ _ _ p2,
                     (hstop _ p3).1, p4, p5⟩
      · simp only [if_pos hcm, if_neg hrf]
        by_cases huu : e.2.user_ip = u
        · rw [huu]
          simp only [get_ip_session, delete_session_data, p4, p5]
          exact ⟨getKV_delKV_none _ _ _ p1, getKV_delKV_none _ _ _ p2,
                 (hstop _ p3).2, trivial, trivial⟩
        · cases hgi : getKV acc.1.ipSessions e.2.user_ip with
          | some sid' =>
            simp only [get_ip_session, delete_session_data, hgi]
            by_cases hse : sid' = e.1
            · simp only [if_pos hse, delete_ip_session]
              refine ⟨getKV_delKV_none _ _ _ p1, getKV_delKV_none _ _ _ p2,
                      (hstop _ p3).2, ?_, ?_⟩
              · exact getKV_delKV_none _ _ _ p4
              · exact getKV_delKV_none _ _ _ p5
            · simp only [if_neg hse]
              exact ⟨getKV_delKV_none _ _ _ p1, getKV_delKV_none _ _ _ p2,
                     (hstop _ p3).2, p4, p5⟩
          | none =>
            cases hgr : getKV acc.2.1.redisIp e.2.user_ip with
            | some sid' =>
              simp only [get_ip_session, delete_session_data, hgi, hgr]
              by_cases hse : sid' = e.1
              · simp only [if_pos hse, delete_ip_session]
                refine ⟨getKV_delKV_none _ _ _ p1, getKV_delKV_none _ _ _ p2,
                        (hstop _ p3).2, ?_, ?_⟩
                · apply getKV_delKV_none
                  rw [getKV_setKV_ne _ _ _ _ (fun hh => huu hh.symm)]
                  exact p4
                · exact getKV_delKV_none _ _ _ p5
              · simp only [if_neg hse]
                refine ⟨getKV_delKV_none _ _ _ p1, getKV_delKV_none _ _ _ p2,
                        (hstop _ p3).2, ?_, p5⟩
                rw [getKV_setKV_ne _ _ _ _ (fun hh => huu hh.symm)]
                exact p4
            | none =>
              simp only [get_ip_session, delete_session_data, hgi, hgr]
              exact ⟨getKV_delKV_none _ _ _ p1, getKV_delKV_none _ _ _ p2,
                     (hstop _ p3).2, p4, p5⟩
    · simp only [if_neg hcm]
      by_cases huu : e.2.user_ip = u
      · rw [huu]
        simp only [get_ip_session, delete_session_data, p4, p5]
        exact ⟨getKV_delKV_none _ _ _ p1, getKV_delKV_none _ _ _ p2,
               p3, trivial, trivial⟩
      · cases hgi : getKV acc.1.ipSessions e.2.user_ip with
        | some sid' =>
          simp only [get_ip_session, delete_session_data, hgi]
          by_cases hse : sid' = e.1
          · simp only [if_pos hse, delete_ip_session]
            refine ⟨getKV_delKV_none _ _ _ p1, getKV_delKV_none _ _ _ p2,
                    p3, ?_, ?_⟩
            · exact getKV_delKV_none _ _ _ p4
            · exact getKV_delKV_none _ _ _ p5
          · simp only [if_neg hse]
            exact ⟨getKV_delKV_none _ _ _ p1, getKV_delKV_none _ _ _ p2,
                   p3, p4, p5⟩
        | none =>
          cases hgr : getKV acc.2.1.redisIp e.2.user_ip with
          | some sid' =>
            simp only [get_ip_session, delete_session_data, hgi, hgr]
            by_cases hse : sid' = e.1
            · simp only [if_pos hse, delete_ip_session]
              refine ⟨getKV_delKV_none _ _ _ p1, getKV_delKV_none _ _ _ p2,
                      p3, ?_, ?_⟩
              · apply getKV_delKV_none
                rw [getKV_setKV_ne _ _ _ _ (fun hh => huu hh.symm)]
                exact p4
              · exact getKV_delKV_none _ _ _ p5
            · simp only [if_neg hse]
              refine ⟨getKV_delKV_none _ _ _ p1, getKV_delKV_none _ _ _ p2,
                      p3, ?_, p5⟩
              rw [getKV_setKV_ne _ _ _ _ (fun hh => huu hh.symm)]
              exact p4
          | none =>
            simp only [get_ip_session, delete_session_data, hgi, hgr]
            exact ⟨getKV_delKV_none _ _ _ p1, getKV_delKV_none _ _ _ p2,
                   p3, p4, p5⟩
  · simp only [if_neg hstale]
    exact ⟨p1, p2, p3, p4, p5⟩

theorem foldl_reapOne_pre (rf : Nat → Bool) (now cid : Nat) (sid u : String)
    (L : List (String × SessionData)) (acc : Inst × Shared × List Act)
    (hL : ∀ e ∈ L, e.1 ≠ sid ∧ e.2.container_id ≠ cid)
    (h1 : getKV acc.1.ipSessions u = some sid)
    (h2 : cid ∈ acc.2.1.containers)
    (h3 : (acc.2.2).count (Act.containerStop cid) = 0) :
    getKV (L.foldl (reapOne rf now) acc).1.ipSessions u = some sid ∧
    cid ∈ (L.foldl (reapOne rf now) acc).2.1.containers ∧
    ((L.foldl (reapOne rf now) acc).2.2).count (Act.containerStop cid) = 0 := by
  induction L generalizing acc with
  | nil => exact ⟨h1, h2, h3⟩
  | cons e rest ih =>
    obtain ⟨hek, hec⟩ := hL e (List.mem_cons_self e rest)
    obtain ⟨h1', h2', h3'⟩ :=
      reapOne_preserves_pre rf now cid sid u acc e hek hec h1 h2 h3
    exact ih _ (fun e' he' => hL e' (List.mem_cons_of_mem e he')) h1' h2' h3'

theorem foldl_reapOne_post (rf : Nat → Bool) (now cid : Nat) (sid u : String)
    (L : List (String × SessionData)) (acc : Inst × Shared × List Act)
    (hL : ∀ e ∈ L, e.2.container_id ≠ cid)
    (p1 : getKV acc.1.sessions sid = none)
    (p2 : getKV acc.2.1.redisSessions sid = none)
    (p3 : (acc.2.2).count (Act.containerStop cid) = 1)
    (p4 : getKV acc.1.ipSessions u = none)
    (p5 : getKV acc.2.1.redisIp u = none) :
    getKV (L.foldl (reapOne rf now) acc).1.sessions sid = none ∧
    getKV (L.foldl (reapOne rf now) acc).2.1.redisSessions sid = none ∧
    ((L.foldl (reapOne rf now) acc).2.2).count (Act.containerStop cid) = 1 ∧
    getKV (L.foldl (reapOne rf now) acc).1.ipSessions u = none ∧
    getKV (L.foldl (reapOne rf now) acc).2.1.redisIp u = none := by
  induction L generalizing acc with
  | nil => exact ⟨p1, p2, p3, p4, p5⟩
  | cons e rest ih =>
    obtain ⟨q1, q2, q3, q4, q5⟩ :=
      reapOne_preserves_post rf now cid sid u acc e
        (hL e (List.mem_cons_self e rest)) p1 p2 p3 p4 p5
    exact ih _ (fun e' he' => hL e' (List.mem_cons_of_mem e he')) q1 q2 q3 q4 q5

/-- Processing the stale session itself: stop attempted once (raising or
not), record deleted from both stores, owner mapping deleted from both. -/
theorem reapOne_stale_self (rf : Nat → Bool) (now : Nat) (sid : String)
    (d : SessionData) (acc : Inst × Shared × List Act)
    (hstale : now - d.last_active > TIMEOUT)
    (hc : d.container_id ∈ acc.2.1.containers)
    (hip : getKV acc.1.ipSessions d.user_ip = some sid)
    (h3 : (acc.2.2).count (Act.containerStop d.container_id) = 0) :
    getKV (reapOne rf now acc (sid, d)).1.sessions sid = none ∧
    getKV (reapOne rf now acc (sid, d)).2.1.redisSessions sid = none ∧
    ((reapOne rf now acc (sid, d)).2.2).count (Act.containerStop d.container_id) = 1 ∧
    getKV (reapOne rf now acc (sid, d)).1.ipSessions d.user_ip = none ∧
    getKV (reapOne rf now acc (sid, d)).2.1.redisIp d.user_ip = none := by
  unfold reapOne
  simp only [if_pos hstale, if_pos hc]
  by_cases hrf : rf d.container_id
  · simp only [if_pos hrf]
    simp only [get_ip_session, delete_session_data, hip, if_pos rfl,
      delete_ip_session]
    refine ⟨getKV_delKV_self _ _, getKV_delKV_self _ _, ?_,
            getKV_delKV_self _ _, getKV_delKV_self _ _⟩
    simp [List.count_append, h3, List.count_cons]
  · simp only [if_neg hrf]
    simp only [get_ip_session, delete_session_data, hip, if_pos rfl,
      delete_ip_session]
    refine ⟨getKV_delKV_self _ _, getKV_delKV_self _ _, ?_,
            getKV_delKV_self _ _, getKV_delKV_self _ _⟩
    simp [List.count_append, h3, List.count_cons]

/-- C7: any session in the swept instance's table whose `last_active` is
more than `TIMEOUT` seconds old at sweep time (the sweep wakes every 60s,
so this covers every session within one interval of crossing the
threshold) is removed by that sweep: `container.stop` is invoked exactly
once for its container, its record is deleted from the local dict and from
Redis, and its owner mapping is deleted from both — all regardless of
whether the container teardown raises (`rf` arbitrary). -/
theorem c7_reaper_removes_stale (rf : Nat → Bool) (i : Inst) (s : Shared)
    (now : Nat) (sid : String) (d : SessionData)
    (hnd : (i.sessions.map Prod.fst).Nodup)
    (hmem : (sid, d) ∈ i.sessions)
    (hstale : now - d.last_active > TIMEOUT)
    (hc : d.container_id ∈ s.containers)
    (huniq : ∀ p ∈ i.sessions, p.2.container_id = d.container_id → p.1 = sid)
    (hip : getKV i.ipSessions d.user_ip = some sid) :
    getKV (cleanup_sweep rf i s now).1.sessions sid = none ∧
    getKV (cleanup_sweep rf i s now).2.1.redisSessions sid = none ∧
    ((cleanup_sweep rf i s now).2.2).count (Act.containerStop d.container_id) = 1 ∧
    getKV (cleanup_sweep rf i s now).1.ipSessions d.user_ip = none ∧
    getKV (cleanup_sweep rf i s now).2.1.redisIp d.user_ip = none := by
  obtain ⟨L1, L2, hsplit⟩ := List.append_of_mem hmem
  have hnd2 := hnd
  rw [hsplit, List.map_append, List.map_cons] at hnd2
  rw [List.nodup_append] at hnd2
  obtain ⟨hndL1, hndc, hdisj⟩ := hnd2
  have hsidL1 : sid ∉ L1.map Prod.fst := by
    intro hmemL1
    exact hdisj hmemL1 (List.mem_cons_self _ _)
  have hsidL2 : sid ∉ L2.map Prod.fst := by
    rw [List.nodup_cons] at hndc
    exact hndc.1
  have hkey1 : ∀ e ∈ L1, e.1 ≠ sid := by
    intro e he heq
    apply hsidL1
    rw [← heq]
    exact List.mem_map_of_mem Prod.fst he
  have hkey2 : ∀ e ∈ L2, e.1 ≠ sid := by
    intro e he hkeq
    apply hsidL2
    rw [← hkeq]
    exact List.mem_map_of_mem Prod.fst he
  have hcid1 : ∀ e ∈ L1, e.2.container_id ≠ d.container_id := by
    intro e he heq
    have hmemAll : e ∈ i.sessions := by
      rw [hsplit]; exact List.mem_append_left _ he
    exact hkey1 e he (huniq e hmemAll heq)
  have hcid2 : ∀ e ∈ L2, e.2.container_id ≠ d.container_id := by
    intro e he heq
    have hmemAll : e ∈ i.sessions := by
      rw [hsplit]
      exact List.mem_append_right _ (List.mem_cons_of_mem _ he)
    exact hkey2 e he (huniq e hmemAll heq)
  unfold cleanup_sweep
  rw [hsplit, List.foldl_append, List.foldl_cons]
  obtain ⟨a1, a2, a3⟩ := foldl_reapOne_pre rf now d.container_id sid d.user_ip
    L1 (i, s, []) (fun e he => ⟨hkey1 e he, hcid1 e he⟩) hip hc (by simp)
  obtain ⟨b1, b2, b3, b4, b5⟩ := reapOne_stale_self rf now sid d _ hstale a2 a1 a3
  exact foldl_reapOne_post rf now d.container_id sid d.user_ip L2 _
    hcid2 b1 b2 b3 b4 b5

/-! ## Payload delivery to the worker

Line 304 serializes the payload with `json.dumps(payload,
separators=(",", ":"))`; line 306 splices that string into a singly-quoted
argument of a `bash -c` command; `browsing_agent.py` then parses
`sys.argv[1]` back with `json.loads` (its lines 25-42).  The payloads are
flat JSON objects with string keys and values, so the two JSON functions
are modelled for exactly that shape, at the character level. -/

def squo : Char := Char.ofNat 39

def dquo : Char := Char.ofNat 34

def lbrace : Char := Char.ofNat 123

def rbrace : Char := Char.ofNat 125

def encStr (s : String) : List Char := dquo :: (s.data ++ [dquo])

def encPair (p : String × String) : List Char :=
  encStr p.1 ++ ':' :: encStr p.2

def encPairs : List (String × String) → List Char
  | [] => []
  | [p] => encPair p
  | p :: q :: rest => encPair p ++ ',' :: encPairs (q :: rest)

/-- `json.dumps(obj, separators=(",", ":"))` for a flat object with string
keys and values.  On strings of plain printable ASCII without quote or
backslash (`plainStr`), `json.dumps` emits every character verbatim; the
theorems below restrict to that range. -/
def jdumps (o : List (String × String)) : String :=
  String.mk (lbrace :: (encPairs o ++ [rbrace]))

/-- Characters `json.dumps` emits verbatim inside a string literal:
printable ASCII other than the double quote and the backslash. -/
def plainChar (c : Char) : Bool :=
  decide (32 ≤ c.toNat) && decide (c.toNat ≤ 126) &&
    !(c = dquo) && !(c = Char.ofNat 92)

def plainStr (s : String) : Bool := s.data.all plainChar

def parseStrAux : List Char → List Char → Option (List Char × List Char)
  | [], _ => none
  | c :: rest, acc =>
    if c = dquo then some (acc.reverse, rest) else parseStrAux rest (c :: acc)

/-- Recursive-descent object-member parser for the output shape of
`jdumps`: `"key":"value"` members separated by `,`, terminated by the
closing brace; mirrors what `json.loads` accepts on that input (no
whitespace, no escapes — excluded by `plainStr`). -/
def parsePairs : Nat → List Char → Option (List (String × String) × List Char)
  | 0, _ => none
  | fuel + 1, cs =>
    match cs with
    | [] => none
    | c :: rest =>
      if c = dquo then
        match parseStrAux rest [] with
        | none => none
        | some (k, rest₁) =>
          match rest₁ with
          | [] => none
          | c₁ :: rest₂ =>
            if c₁ = ':' then
              match rest₂ with
              | [] => none
              | c₂ :: rest₃ =>
                if c₂ = dquo then
                  match parseStrAux rest₃ [] with
                  | none => none
                  | some (v, rest₄) =>
                    match rest₄ with
                    | [] => none
                    | c₃ :: rest₅ =>
                      if c₃ = ',' then
                        match parsePairs fuel rest₅ with
                        | some (ps, rest₆) =>
                          some ((String.mk k, String.mk v) :: ps, rest₆)
                        | none => none
                      else if c₃ = rbrace then
                        some ([(String.mk k, String.mk v)], rest₅)
                      else none
                else none
            else none
      else none

/-- `json.loads` on the object shapes produced by `jdumps`; `none` models a
`json.JSONDecodeError`. -/
def jloads (s : String) : Option (List (String × String)) :=
  match s.data with
  | [] => none
  | c :: rest =>
    if c = lbrace then
      if rest = [rbrace] then some []
      else
        match parsePairs s.data.length rest with
        | some (ps, []) => some ps
        | _ => none
    else none

def bashWordsAux : List Char → Bool → Bool → List Char → List (List Char) →
    Option (List (List Char))
  | [], true, _, _, _ => none
  | [], false, hq, cur, ws =>
    some (if cur.isEmpty && !hq then ws else ws ++ [cur.reverse])
  | c :: rest, true, hq, cur, ws =>
    if c = squo then bashWordsAux rest false hq cur ws
    else bashWordsAux rest true hq (c :: cur) ws
  | c :: rest, false, hq, cur, ws =>
    if c = squo then bashWordsAux rest true true cur ws
    else if c = ' ' then
      if cur.isEmpty && !hq then bashWordsAux rest false false [] ws
      else bashWordsAux rest false false [] (ws ++ [cur.reverse])
    else bashWordsAux rest false hq (c :: cur) ws

/-- `bash -c` word splitting restricted to the metacharacters the command
of line 306 can contain: blanks and single quotes.  `none` is bash's
"unexpected EOF while looking for matching quote" syntax error. -/
def bashWords (s : String) : Option (List String) :=
  (bashWordsAux s.data false false [] []).map (List.map String.mk)

/-- Line 306: the payload JSON spliced into a singly-quoted argument. -/
def agentCmd (payloadStr : String) : String :=
  "pipenv run python -u browsing_agent.py " ++
    String.mk (squo :: (payloadStr.data ++ [squo]))

/-- What the Python interpreter hands to `browsing_agent.py` as `sys.argv`:
the words of the split command after `pipenv run python -u`. -/
def deliveredArgv (payloadStr : String) : Option (List String) :=
  (bashWords (agentCmd payloadStr)).map (fun ws => ws.drop 4)

/-- Line 292: `payload["cdp_url"] = cdp_url` on the flat payload dict. -/
def preparePayload (payload : List (String × String)) (cdp_url : String) :
    List (String × String) :=
  setKV payload ("cdp_url") cdp_url

def defaultTask : String :=
  "Navigate to " ++ String.mk [squo] ++
    "https://en.wikipedia.org/wiki/Internet" ++ String.mk [squo] ++ " and scroll."

/-- `parse_payload_from_argv` (`browsing_agent.py` lines 25-42): missing
argument → default task; JSON decode failure → the raw argument becomes the
task string. -/
def parse_payload_from_argv (argv : List String) : List (String × String) :=
  match argv[1]? with
  | none => [("task", defaultTask)]
  | some s =>
    match jloads s with
    | some o => o
    | none => [("task", s)]

theorem parseStrAux_append (s rest acc : List Char) (h : dquo ∉ s) :
    parseStrAux (s ++ dquo :: rest) acc = some (acc.reverse ++ s, rest) := by
  induction s generalizing acc with
  | nil => simp [parseStrAux]
  | cons c cs ih =>
    have hc : c ≠ dquo := fun hh => h (hh ▸ List.mem_cons_self c cs)
    have ih' := ih (c :: acc) (fun hh => h (List.mem_cons_of_mem c hh))
    simp only [List.cons_append, parseStrAux, if_neg hc, List.append_eq]
    rw [ih']
    simp

theorem parsePairs_enc (o : List (String × String)) (rest : List Char)
    (fuel : Nat) (hne : o ≠ []) (hfuel : o.length ≤ fuel)
    (hplain : ∀ p ∈ o, dquo ∉ p.1.data ∧ dquo ∉ p.2.data) :
    parsePairs fuel (encPairs o ++ rbrace :: rest) = some (o, rest) := by
  induction o generalizing fuel rest with
  | nil => exact absurd rfl hne
  | cons p ps ih =>
    obtain ⟨hk, hv⟩ := hplain p (List.mem_cons_self p ps)
    match fuel with
    | 0 => exact absurd hfuel (by simp)
    | fuel + 1 =>
      cases ps with
      | nil =>
        have h1 := parseStrAux_append p.1.data
          (':' :: dquo :: (p.2.data ++ dquo :: rbrace :: rest)) [] hk
        have h2 := parseStrAux_append p.2.data (rbrace :: rest) [] hv
        simp only [List.reverse_nil, List.nil_append] at h1 h2
        show parsePairs (fuel + 1) (encPair p ++ rbrace :: rest) = some ([p], rest)
        have hrc : ¬ (rbrace = ',') := by decide
        simp only [encPair, encStr, List.cons_append, List.append_assoc,
          List.nil_append, List.singleton_append]
        simp [parsePairs, h1, h2, hrc]
      | cons q qs =>
        have hfuel' : (q :: qs).length ≤ fuel := by
          simp only [List.length_cons] at hfuel ⊢
          omega
        have h3 := ih rest fuel (by simp) hfuel'
          (fun p' hp' => hplain p' (List.mem_cons_of_mem p hp'))
        have h1 := parseStrAux_append p.1.data
          (':' :: dquo :: (p.2.data ++ dquo :: ',' ::
            (encPairs (q :: qs) ++ rbrace :: rest))) [] hk
        have h2 := parseStrAux_append p.2.data
          (',' :: (encPairs (q :: qs) ++ rbrace :: rest)) [] hv
        simp only [List.reverse_nil, List.nil_append] at h1 h2
        show parsePairs (fuel + 1)
            ((encPair p ++ ',' :: encPairs (q :: qs)) ++ rbrace :: rest) =
          some (p :: q :: qs, rest)
        simp only [encPair, encStr, List.cons_append, List.append_assoc,
          List.nil_append, List.singleton_append]
        simp [parsePairs, h1, h2, h3]

theorem string_mk_data (l : List Char) : (String.mk l).data = l := rfl

theorem encPairs_length (o : List (String × String)) :
    o.length ≤ (encPairs o).length := by
  induction o with
  | nil => simp [encPairs]
  | cons p ps ih =>
    cases ps with
    | nil =>
      show [p].length ≤ (encPair p).length
      simp only [encPair, encStr, List.length_cons, List.length_append,
        List.length_nil]
      omega
    | cons q qs =>
      have h1 : 1 ≤ (encPair p).length := by
        simp only [encPair, encStr, List.length_cons, List.length_append]
        omega
      simp only [encPairs, List.length_append, List.length_cons] at *
      omega

theorem encPairs_cons_head (p : String × String) (ps : List (String × String)) :
    ∃ t, encPairs (p :: ps) = dquo :: t := by
  cases ps with
  | nil =>
    refine ⟨p.1.data ++ dquo :: ':' :: dquo :: (p.2.data ++ [dquo]), ?_⟩
    simp [encPairs, encPair, encStr]
  | cons q qs =>
    refine ⟨p.1.data ++ dquo :: ':' :: dquo ::
      (p.2.data ++ dquo :: ',' :: encPairs (q :: qs)), ?_⟩
    simp [encPairs, encPair, encStr]

/-- `json.loads` inverts `json.dumps` on the flat string objects the server
ships, provided no string contains a double quote (no escapes needed). -/
theorem jloads_jdumps (o : List (String × String))
    (hplain : ∀ p ∈ o, dquo ∉ p.1.data ∧ dquo ∉ p.2.data) :
    jloads (jdumps o) = some o := by
  cases o with
  | nil => rfl
  | cons p ps =>
    obtain ⟨t, ht⟩ := encPairs_cons_head p ps
    have hne2 : encPairs (p :: ps) ++ [rbrace] ≠ [rbrace] := by
      rw [ht]
      intro hco
      rw [List.cons_append] at hco
      have := List.cons.inj hco
      exact absurd this.2 (by simp)
    have hlen : (p :: ps).length ≤ (encPairs (p :: ps)).length + 1 + 1 := by
      have := encPairs_length (p :: ps)
      omega
    have key := parsePairs_enc (p :: ps) [] ((encPairs (p :: ps)).length + 1 + 1)
      (by simp) hlen hplain
    simp only [jloads, jdumps, string_mk_data]
    simp [hne2, List.length_append, key]

theorem string_eta (s : String) : String.mk s.data = s := rfl

theorem bashWordsAux_content (content rest : List Char) (hq : Bool)
    (cur : List Char) (ws : List (List Char)) (h : squo ∉ content) :
    bashWordsAux (content ++ rest) true hq cur ws =
      bashWordsAux rest true hq (content.reverse ++ cur) ws := by
  induction content generalizing cur with
  | nil => simp
  | cons c cs ih =>
    have hc : c ≠ squo := fun hh => h (hh ▸ List.mem_cons_self c cs)
    have ih' := ih (c :: cur) (fun hh => h (List.mem_cons_of_mem c hh))
    simp only [List.cons_append, bashWordsAux, if_neg hc, List.append_eq]
    rw [ih']
    simp

def agentPrefixWords : List (List Char) :=
  [['p','i','p','e','n','v'], ['r','u','n'], ['p','y','t','h','o','n'],
   ['-','u'],
   ['b','r','o','w','s','i','n','g','_','a','g','e','n','t','.','p','y']]

theorem bashWordsAux_prefix (rest : List Char) :
    bashWordsAux (("pipenv run python -u browsing_agent.py ").data ++ rest)
      false false [] [] =
    bashWordsAux rest false false [] agentPrefixWords := rfl

/-- When the serialized payload contains no single quote, the single-quoted
splice survives bash word splitting intact: the worker receives exactly the
payload string as its one argument. -/
theorem deliveredArgv_noquote (ps : String) (h : squo ∉ ps.data) :
    deliveredArgv ps = some ["browsing_agent.py", ps] := by
  unfold deliveredArgv bashWords agentCmd
  rw [String.data_append, string_mk_data, bashWordsAux_prefix]
  have hstep1 : bashWordsAux (squo :: (ps.data ++ [squo])) false false []
      agentPrefixWords =
      bashWordsAux (ps.data ++ [squo]) true true [] agentPrefixWords := by
    simp [bashWordsAux]
  rw [hstep1, bashWordsAux_content _ _ _ _ _ h]
  have hb : String.mk ['b','r','o','w','s','i','n','g','_','a','g','e','n','t',
      '.','p','y'] = "browsing_agent.py" := rfl
  simp [bashWordsAux, agentPrefixWords, hb, string_eta]

/-! ## Claim theorems -/

/-- C2 (amended): for a `/start` whose owner mapping resolves to a session
record that does not hold a live process handle — true of every record read
through Redis, since handles never serialize, but not of the handling
worker's own local record after a prior `/start` (see the counterexample
below) — and whose container is still running: if
`now - last_active < TIMEOUT` the request reuses that session and its
container — no `containers.run`, same `container_id`, same session id;
otherwise the stale session is torn down (container stopped and removed,
record and Redis mirror deleted) and a brand-new container with a different
identifier is provisioned (fresh ids come from the supply, above every id
already assigned). -/
theorem c2_resolve_reuse_or_teardown (i : Inst) (s : Shared) (ip : String)
    (now : Nat) (sid : String) (d : SessionData)
    (hip : getKV i.ipSessions ip = some sid)
    (hsd : getKV i.sessions sid = some d)
    (hproc : d.process = none)
    (hcont : d.container_id ∈ s.containers)
    (hcid : d.container_id < s.nextContainer) :
    if now - d.last_active < TIMEOUT then
      (phase_resolve i s ip now).2.2.2 = ResolveOut.reuse sid ∧
      (phase_resolve i s ip now).2.2.1 = [] ∧
      ((phase_create (phase_resolve i s ip now).1 (phase_resolve i s ip now).2.1
          ip now (phase_resolve i s ip now).2.2.2).2.2.2 = CreateOut.ok sid ∧
       (phase_create (phase_resolve i s ip now).1 (phase_resolve i s ip now).2.1
          ip now (phase_resolve i s ip now).2.2.2).2.2.1 = [] ∧
       (getKV (phase_create (phase_resolve i s ip now).1
            (phase_resolve i s ip now).2.1 ip now
            (phase_resolve i s ip now).2.2.2).1.sessions sid).map
          SessionData.container_id = some d.container_id)
    else
      (phase_resolve i s ip now).2.2.2 = ResolveOut.fresh ∧
      Act.containerStop d.container_id ∈ (phase_resolve i s ip now).2.2.1 ∧
      Act.containerRemove d.container_id ∈ (phase_resolve i s ip now).2.2.1 ∧
      getKV (phase_resolve i s ip now).1.sessions sid = none ∧
      getKV (phase_resolve i s ip now).2.1.redisSessions sid = none ∧
      ((phase_create (phase_resolve i s ip now).1 (phase_resolve i s ip now).2.1
          ip now (phase_resolve i s ip now).2.2.2).2.2.2 =
         CreateOut.ok ("uuid-" ++ toString (phase_resolve i s ip now).2.1.nextSession) ∧
       Act.containerRun (phase_resolve i s ip now).2.1.nextContainer ∈
         (phase_create (phase_resolve i s ip now).1 (phase_resolve i s ip now).2.1
            ip now (phase_resolve i s ip now).2.2.2).2.2.1 ∧
       (phase_resolve i s ip now).2.1.nextContainer ≠ d.container_id ∧
       (getKV (phase_create (phase_resolve i s ip now).1
            (phase_resolve i s ip now).2.1 ip now
            (phase_resolve i s ip now).2.2.2).1.sessions
          ("uuid-" ++ toString (phase_resolve i s ip now).2.1.nextSession)).map
          SessionData.container_id =
         some (phase_resolve i s ip now).2.1.nextContainer) := by
  by_cases hlt : now - d.last_active < TIMEOUT
  · rw [if_pos hlt]
    have hres : phase_resolve i s ip now =
        ({ i with sessions := setKV i.sessions sid { d with last_active := now } },
         { s with redisSessions :=
             setKV s.redisSessions sid { d with last_active := now } },
         [], ResolveOut.reuse sid) := by
      simp [phase_resolve, get_ip_session, hip, get_session_data, hsd,
        if_pos hlt, if_pos hcont, set_session_data, serializableRecord, hproc]
    rw [hres]
    refine ⟨rfl, rfl, ?_, ?_, ?_⟩
    · simp [phase_create, get_session_data, getKV_setKV_self,
        set_session_data, serializableRecord, hproc]
    · simp [phase_create, get_session_data, getKV_setKV_self,
        set_session_data, serializableRecord, hproc]
    · simp [phase_create, get_session_data, getKV_setKV_self,
        set_session_data, serializableRecord, hproc]
  · rw [if_neg hlt]
    have hres : phase_resolve i s ip now =
        ({ i with
            sessions := delKV i.sessions sid,
            ipSessions := delKV i.ipSessions ip },
         { s with
            containers := s.containers.erase d.container_id,
            redisSessions := delKV s.redisSessions sid,
            redisIp := delKV s.redisIp ip },
         [Act.containerStop d.container_id, Act.containerRemove d.container_id],
         ResolveOut.fresh) := by
      simp [phase_resolve, get_ip_session, hip, get_session_data, hsd,
        if_neg hlt, if_pos hcont, delete_session_data, delete_ip_session]
    rw [hres]
    refine ⟨rfl, by simp, by simp, getKV_delKV_self _ _, getKV_delKV_self _ _,
      rfl, by simp [phase_create], Nat.ne_of_gt hcid, ?_⟩
    simp [phase_create, set_session_data, serializableRecord, set_ip_session,
      getKV_setKV_self]

def wIp : String := "1.2.3.4"

def c2dat : SessionData :=
  { start_time := 10, last_active := 100, container_id := 5, cdp_port := 5,
    no_vnc_port := 5, vnc_port := 5, user_ip := wIp, host_public_ip := "h",
    process := none }

def c2inst : Inst := ⟨[("s1", c2dat)], [(wIp, "s1")]⟩

def c2shared : Shared := ⟨[("s1", c2dat)], [(wIp, "s1")], [5], [], [], 6, 0, 0, "h"⟩

/-- Witness for C2: at a concrete fresh-enough session (idle 50s < 300s)
the resolve phase reuses session `s1` without running a container. -/
theorem c2_resolve_reuse_or_teardown_witness :
    (getKV c2inst.ipSessions wIp = some "s1" ∧
     getKV c2inst.sessions "s1" = some c2dat ∧
     c2dat.process = none ∧
     c2dat.container_id ∈ c2shared.containers ∧
     c2dat.container_id < c2shared.nextContainer ∧
     150 - c2dat.last_active < TIMEOUT) ∧
    (phase_resolve c2inst c2shared wIp 150).2.2.2 = ResolveOut.reuse "s1" ∧
    (phase_resolve c2inst c2shared wIp 150).2.2.1 = [] := by
  refine ⟨by decide, ?_⟩
  have h := c2_resolve_reuse_or_teardown c2inst c2shared wIp 150 "s1" c2dat
    (by decide) (by decide) rfl (by decide) (by decide)
  rw [if_pos (by decide : 150 - c2dat.last_active < TIMEOUT)] at h
  exact ⟨h.1, h.2.1⟩

/-- C2 (refuted by the code as frozen): after any `/start`, the handling
worker's local record holds the live Popen handle (line 315 mutates the
dict in place before the line-316 mirror write raises).  A repeat `/start`
from the same owner 10s later on the *same* worker process resolves the
owner mapping to that fresh-enough session (`110 - 100 < TIMEOUT`), so the
claim requires the session and its sandbox to be reused — but the line-215
`last_active` refresh write raises `TypeError` on the handle and the
request aborts: the resolve output is `raised`, not `reuse`, no worker is
started, and nothing is torn down either (no teardown actions, record
still present, container still running). -/
theorem c2_repeat_start_neither_reuses_nor_tears_down :
    ((fun r1 =>
        getKV r1.1.ipSessions wIp = some ("uuid-0") ∧
        (getKV r1.1.sessions "uuid-0").map SessionData.last_active =
          some 100 ∧
        110 - 100 < TIMEOUT ∧
        ((fun r2 =>
            r2.2.2.2 =
              ResolveOut.raised ("TypeError: Popen not serializable") ∧
            r2.2.2.1 = [] ∧
            getKV r2.1.sessions "uuid-0" ≠ none ∧
            (0 : Nat) ∈ r2.2.1.containers)
          (phase_resolve r1.1 r1.2.1 wIp 110)) ∧
        (start_request r1.1 r1.2.1 wIp 110).2.2.2 =
          StartOutcome.raised ("TypeError: Popen not serializable") ∧
        (start_request r1.1 r1.2.1 wIp 110).2.2.1 = [])
      (start_request ⟨[], []⟩ ⟨[], [], [], [], [], 0, 0, 0, "h"⟩ wIp 100)) := by
  decide

/-- C1 (refuted by the code): there is no per-owner lock, so two `/start`
requests from the same IP handled concurrently by two server worker
processes can both resolve "no existing session" against the shared store
and each create one.  After the schedule resolve-A, resolve-B, create-A,
create-B, the shared store holds two distinct session records with the
same `user_ip` (both present, hence non-Closed), violating the one-session
-per-owner invariant. -/
theorem c1_owner_race_two_sessions :
    (phase_resolve ⟨[], []⟩ ⟨[], [], [], [], [], 0, 0, 0, "h"⟩ wIp 50).2.2.2 =
      ResolveOut.fresh ∧
    ((fun s4 =>
        getKV s4.redisSessions "uuid-0" ≠ none ∧
        getKV s4.redisSessions "uuid-1" ≠ none ∧
        (s4.redisSessions.filter (fun p => p.2.user_ip = wIp)).length = 2)
      (let s0 : Shared := ⟨[], [], [], [], [], 0, 0, 0, "h"⟩
       let rA := phase_resolve ⟨[], []⟩ s0 wIp 50
       let rB := phase_resolve ⟨[], []⟩ rA.2.1 wIp 50
       let cA := phase_create rA.1 rB.2.1 wIp 50 rA.2.2.2
       let cB := phase_create rB.1 cA.2.1 wIp 50 rB.2.2.2
       cB.2.1)) := by
  decide

/-- C3 (refuted by the code): worker process A's `/start` spawns worker
pid 0 and then aborts on the line-316 store write, leaving pid 0 running
and referenced only in A's local dict (the JSON store cannot carry a Popen
handle).  A second `/start` from the same owner 10s later on worker
process B (fresh local dicts, same Redis/Docker) reuses the session via
the Redis record — whose `process` is null — and spawns pid 1 without any
kill: afterwards both pids are live and bound to the same container 0, and
B's trace contains exactly one spawn and no `killpg`. -/
theorem c3_second_worker_spawned_alongside_live_first :
    ((fun r1 r2 =>
        r1.2.2.1 = [Act.containerRun 0, Act.spawn 0] ∧
        r2.2.2.1 = [Act.spawn 1] ∧
        (0 : Nat) ∈ r2.2.1.liveProcs ∧ (1 : Nat) ∈ r2.2.1.liveProcs ∧
        ((0 : Nat), (0 : Nat)) ∈ r2.2.1.procContainer ∧
        ((1 : Nat), (0 : Nat)) ∈ r2.2.1.procContainer)
      (start_request ⟨[], []⟩ ⟨[], [], [], [], [], 0, 0, 0, "h"⟩ wIp 100)
      (start_request ⟨[], []⟩
        (start_request ⟨[], []⟩ ⟨[], [], [], [], [], 0, 0, 0, "h"⟩ wIp 100).2.1
        wIp 110)) := by
  decide

/-- C8 (refuted by the code): the record written right after the worker is
spawned (lines 315-316) holds the live Popen handle; `json.dumps` raises
`TypeError` on it, so the Redis mirror write fails and the request aborts.
The local dict ends with `process = some 0` while the shared store still
holds `process = none`: the write is not write-through and the shared
store disagrees with the local map. -/
theorem c8_process_handle_write_fails :
    ((fun r =>
        r.2.2.2 = StartOutcome.raised ("TypeError: Popen not serializable") ∧
        (getKV r.1.sessions "uuid-0").map SessionData.process = some (some 0) ∧
        (getKV r.2.1.redisSessions "uuid-0").map SessionData.process =
          some none)
      (start_request ⟨[], []⟩ ⟨[], [], [], [], [], 0, 0, 0, "h"⟩ wIp 100)) := by
  decide

theorem isYield_info (s : String) : isYield (Ev.info s) = true := rfl

theorem isYield_close : isYield Ev.close = true := rfl

theorem isYield_kill : isYield Ev.kill = false := rfl

def termMsgs : Outcome → List String
  | Outcome.completed => [finishedMsg]
  | Outcome.timedOut => [timeoutMsg, killErrTimeoutMsg]
  | Outcome.disconnected => [discMsg, killErrDiscMsg]
  | Outcome.raised => []
  | Outcome.fuelOut => []

/-- C4 (refuted by the code): the generator has no `except` arm — only a
`finally` — so an exception inside the loop (here: the `last_active`
refresh write raising, which on this code happens whenever the local
record still holds the process handle) propagates and the stream ends
after the two header lines with no close marker at all. -/
theorem c4_internal_error_stream_without_close :
    ((fun r =>
        r.2.2 = Outcome.raised ∧
        r.1 = [Ev.info ("Session started with ID: s. Container: c"),
               Ev.info ("cdp_url: u")] ∧
        Ev.close ∉ r.1)
      (stream_generator ("s") ("c") ("u")
        [⟨true, false, false, false, true, false, false, false, false, false⟩]
        ⟨[], [], some 7⟩)) := by
  decide

/-- C4 (amended): on the three terminal paths the code does handle —
worker exit, deadline exceeded, client disconnect — the SSE frame sequence
ends with the close marker immediately preceded by an informative data
line that identifies the cause (`Subprocess finished.`, the timeout
message or its kill-error message, the disconnect message or its
kill-error message — the three sets are disjoint). -/
theorem c4_terminal_marker_on_handled_paths (sid cname cdp : String)
    (iters : List Iter) (st : SState)
    (h : (stream_generator sid cname cdp iters st).2.2 = Outcome.completed ∨
         (stream_generator sid cname cdp iters st).2.2 = Outcome.timedOut ∨
         (stream_generator sid cname cdp iters st).2.2 = Outcome.disconnected) :
    ∃ pre m, sse (stream_generator sid cname cdp iters st).1 =
        pre ++ [Ev.info m, Ev.close] ∧
      m ∈ termMsgs (stream_generator sid cname cdp iters st).2.2 := by
  obtain ⟨pre, kr, heq, hpre⟩ := streamLoop_shape iters st
  have hfil : List.filter isYield pre = pre :=
    List.filter_eq_self.mpr (fun e he => isRead_isYield e (hpre e he))
  have hev : (stream_generator sid cname cdp iters st).1 =
      Ev.info ("Session started with ID: " ++ sid ++ ". Container: " ++ cname) ::
        Ev.info ("cdp_url: " ++ cdp) :: (streamLoop iters st).1 := rfl
  rcases h with hc | hc | hc
  all_goals (
    have hc' : (streamLoop iters st).2.2 = _ := hc
    rw [hc'] at heq
    have hoc : (stream_generator sid cname cdp iters st).2.2 = _ := hc
    rw [hoc, hev, heq])
  · refine ⟨Ev.info ("Session started with ID: " ++ sid ++ ". Container: " ++ cname) ::
      Ev.info ("cdp_url: " ++ cdp) :: pre, finishedMsg, ?_, by simp [termMsgs]⟩
    simp [sse, List.filter_append, termBlock, isYield, hfil]
  · cases kr
    · refine ⟨Ev.info ("Session started with ID: " ++ sid ++ ". Container: " ++ cname) ::
        Ev.info ("cdp_url: " ++ cdp) :: pre, timeoutMsg, ?_, by simp [termMsgs]⟩
      simp [sse, List.filter_append, List.filter_cons, termBlock, killBlock,
        isYield_info, isYield_close, isYield_kill, hfil]
    · refine ⟨Ev.info ("Session started with ID: " ++ sid ++ ". Container: " ++ cname) ::
        Ev.info ("cdp_url: " ++ cdp) :: (pre ++ [Ev.info timeoutMsg]),
        killErrTimeoutMsg, ?_, by simp [termMsgs]⟩
      simp [sse, List.filter_append, List.filter_cons, termBlock, killBlock,
        isYield_info, isYield_close, isYield_kill, hfil]
  · cases kr
    · refine ⟨Ev.info ("Session started with ID: " ++ sid ++ ". Container: " ++ cname) ::
        Ev.info ("cdp_url: " ++ cdp) :: pre, discMsg, ?_, by simp [termMsgs]⟩
      simp [sse, List.filter_append, List.filter_cons, termBlock, killBlock,
        isYield_info, isYield_close, isYield_kill, hfil]
    · refine ⟨Ev.info ("Session started with ID: " ++ sid ++ ". Container: " ++ cname) ::
        Ev.info ("cdp_url: " ++ cdp) :: (pre ++ [Ev.info discMsg]),
        killErrDiscMsg, ?_, by simp [termMsgs]⟩
      simp [sse, List.filter_append, List.filter_cons, termBlock, killBlock,
        isYield_info, isYield_close, isYield_kill, hfil]

def iterQuiet : Iter :=
  ⟨false, false, false, false, true, false, false, false, false, false⟩

/-- Witness for C4: a run whose worker exits in the first iteration ends
with `Subprocess finished.` then the close marker. -/
theorem c4_terminal_marker_on_handled_paths_witness :
    (stream_generator ("s") ("c") ("u") [{ iterQuiet with exited := true }]
        ⟨[], [], some 7⟩).2.2 = Outcome.completed ∧
    (∃ pre m, sse (stream_generator ("s") ("c") ("u")
          [{ iterQuiet with exited := true }] ⟨[], [], some 7⟩).1 =
        pre ++ [Ev.info m, Ev.close] ∧
      m ∈ termMsgs (stream_generator ("s") ("c") ("u")
          [{ iterQuiet with exited := true }] ⟨[], [], some 7⟩).2.2) :=
  ⟨by decide,
   c4_terminal_marker_on_handled_paths ("s") ("c") ("u")
     [{ iterQuiet with exited := true }] ⟨[], [], some 7⟩ (Or.inl (by decide))⟩

/-- C5: whenever the stream terminates through the timeout or the
client-disconnect path, the `os.killpg(..., SIGKILL)` of the worker's
process group happens strictly before the close marker is emitted, and the
close marker is the final event — no output event follows it. -/
theorem c5_kill_before_close (sid cname cdp : String) (iters : List Iter)
    (st : SState)
    (h : (stream_generator sid cname cdp iters st).2.2 = Outcome.timedOut ∨
         (stream_generator sid cname cdp iters st).2.2 = Outcome.disconnected) :
    ∃ pre mid, (stream_generator sid cname cdp iters st).1 =
        pre ++ Ev.kill :: (mid ++ [Ev.close]) ∧
      Ev.close ∉ pre ∧ Ev.close ∉ mid := by
  obtain ⟨pre, kr, heq, hpre⟩ := streamLoop_shape iters st
  have hnc : Ev.close ∉ pre := by
    intro hmem
    have := hpre Ev.close hmem
    simp [isRead] at this
  have hev : (stream_generator sid cname cdp iters st).1 =
      Ev.info ("Session started with ID: " ++ sid ++ ". Container: " ++ cname) ::
        Ev.info ("cdp_url: " ++ cdp) :: (streamLoop iters st).1 := rfl
  rcases h with hc | hc
  · have hc' : (streamLoop iters st).2.2 = Outcome.timedOut := hc
    rw [hc'] at heq
    refine ⟨Ev.info ("Session started with ID: " ++ sid ++ ". Container: " ++
        cname) :: Ev.info ("cdp_url: " ++ cdp) :: (pre ++ [Ev.info timeoutMsg]),
      (if kr then [Ev.info killErrTimeoutMsg] else []), ?_, ?_, ?_⟩
    · rw [hev, heq]
      cases kr <;> simp [termBlock, killBlock]
    · intro hmem
      rcases List.mem_cons.mp hmem with h1 | hmem
      · exact absurd h1 (by simp)
      rcases List.mem_cons.mp hmem with h1 | hmem
      · exact absurd h1 (by simp)
      rcases List.mem_append.mp hmem with h1 | h1
      · exact hnc h1
      · simp at h1
    · cases kr <;> simp
  · have hc' : (streamLoop iters st).2.2 = Outcome.disconnected := hc
    rw [hc'] at heq
    refine ⟨Ev.info ("Session started with ID: " ++ sid ++ ". Container: " ++
        cname) :: Ev.info ("cdp_url: " ++ cdp) :: (pre ++ [Ev.info discMsg]),
      (if kr then [Ev.info killErrDiscMsg] else []), ?_, ?_, ?_⟩
    · rw [hev, heq]
      cases kr <;> simp [termBlock, killBlock]
    · intro hmem
      rcases List.mem_cons.mp hmem with h1 | hmem
      · exact absurd h1 (by simp)
      rcases List.mem_cons.mp hmem with h1 | hmem
      · exact absurd h1 (by simp)
      rcases List.mem_append.mp hmem with h1 | h1
      · exact hnc h1
      · simp at h1
    · cases kr <;> simp

/-- Witness for C5: a run whose caller disconnects in the first iteration
kills the process group before its close marker, which is final. -/
theorem c5_kill_before_close_witness :
    (stream_generator ("s") ("c") ("u") [{ iterQuiet with disconnected := true }]
        ⟨[], [], some 7⟩).2.2 = Outcome.disconnected ∧
    (∃ pre mid, (stream_generator ("s") ("c") ("u")
          [{ iterQuiet with disconnected := true }] ⟨[], [], some 7⟩).1 =
        pre ++ Ev.kill :: (mid ++ [Ev.close]) ∧
      Ev.close ∉ pre ∧ Ev.close ∉ mid) :=
  ⟨by decide,
   c5_kill_before_close ("s") ("c") ("u")
     [{ iterQuiet with disconnected := true }] ⟨[], [], some 7⟩
     (Or.inr (by decide))⟩

/-- C9: when the worker exits on its own, the stream emits the completion
marker (`Subprocess finished.`) immediately before the close marker, and
the `finally` block nulls the stored process reference after the stream
ends. -/
theorem c9_completion_marker_and_null_process (sid cname cdp : String)
    (iters : List Iter) (st : SState)
    (h : (stream_generator sid cname cdp iters st).2.2 = Outcome.completed) :
    (∃ pre, (stream_generator sid cname cdp iters st).1 =
        pre ++ [Ev.info finishedMsg, Ev.close]) ∧
    (stream_generator sid cname cdp iters st).2.1.proc = none := by
  obtain ⟨pre, kr, heq, hpre⟩ := streamLoop_shape iters st
  have hc' : (streamLoop iters st).2.2 = Outcome.completed := h
  rw [hc'] at heq
  constructor
  · refine ⟨Ev.info ("Session started with ID: " ++ sid ++ ". Container: " ++
      cname) :: Ev.info ("cdp_url: " ++ cdp) :: pre, ?_⟩
    have hev : (stream_generator sid cname cdp iters st).1 =
        Ev.info ("Session started with ID: " ++ sid ++ ". Container: " ++ cname) ::
          Ev.info ("cdp_url: " ++ cdp) :: (streamLoop iters st).1 := rfl
    rw [hev, heq]
    simp [termBlock]
  · rfl

/-- Witness for C9: the natural-exit run emits the completion marker before
close and leaves a null process reference. -/
theorem c9_completion_marker_and_null_process_witness :
    (stream_generator ("s") ("c") ("u") [{ iterQuiet with exited := true }]
        ⟨["L1"], [], some 7⟩).2.2 = Outcome.completed ∧
    ((∃ pre, (stream_generator ("s") ("c") ("u")
          [{ iterQuiet with exited := true }] ⟨["L1"], [], some 7⟩).1 =
        pre ++ [Ev.info finishedMsg, Ev.close]) ∧
     (stream_generator ("s") ("c") ("u") [{ iterQuiet with exited := true }]
        ⟨["L1"], [], some 7⟩).2.1.proc = none) :=
  ⟨by decide,
   c9_completion_marker_and_null_process ("s") ("c") ("u")
     [{ iterQuiet with exited := true }] ⟨["L1"], [], some 7⟩ (by decide)⟩

/-- C6 (refuted by the code): `asyncio.wait` returns `done` as an
*unordered set* and line 355 iterates it directly, so when both channels
are simultaneously ready the stderr line can be emitted before the stdout
line.  In this run both readline tasks complete in the same iteration and
the set iterates stderr first: "E1" is emitted before "O1", contradicting
a fixed stdout-then-stderr tie order. -/
theorem c6_tie_emits_stderr_first :
    ((fun r =>
        r.1 = [Ev.info ("Session started with ID: s. Container: c"),
               Ev.info ("cdp_url: u"), Ev.err ("E1"), Ev.out ("O1"),
               Ev.info finishedMsg, Ev.close] ∧
        Ev.out ("O1") ∈ r.1 ∧ Ev.err ("E1") ∈ r.1 ∧
        r.1.indexOf (Ev.err ("E1")) < r.1.indexOf (Ev.out ("O1")))
      (stream_generator ("s") ("c") ("u")
        [⟨false, false, true, true, false, false, false, false, false, true⟩]
        ⟨["O1"], ["E1"], some 7⟩)) := by
  decide

/-- C6 (amended): when both channels are simultaneously ready, both lines
are emitted in that same iteration — but in an order fixed only by the set
iteration, not always stdout first — and each channel's own emitted lines
always preserve their original order: over any whole run they form an
order-preserving selection of that channel's pending line queue. -/
theorem c6_channel_order_preserved :
    (∀ (sid cname cdp : String) (iters : List Iter) (st : SState),
      List.Sublist (outLines (stream_generator sid cname cdp iters st).1)
        st.outQ ∧
      List.Sublist (errLines (stream_generator sid cname cdp iters st).1)
        st.errQ) ∧
    (∀ (it : Iter) (lo le : String) (oq erq : List String),
      it.stdoutReady = true → it.stderrReady = true → lo ≠ "" → le ≠ "" →
      Ev.out lo ∈ (iterReads it (lo :: oq) (le :: erq)).1 ∧
      Ev.err le ∈ (iterReads it (lo :: oq) (le :: erq)).1) := by
  constructor
  · intro sid cname cdp iters st
    have h := streamLoop_out_sublist iters st
    have ho : outLines (stream_generator sid cname cdp iters st).1 =
        outLines (streamLoop iters st).1 := by
      simp [stream_generator, outLines]
    have he : errLines (stream_generator sid cname cdp iters st).1 =
        errLines (streamLoop iters st).1 := by
      simp [stream_generator, errLines]
    rw [ho, he]
    exact h
  · intro it lo le oq erq h1 h2 h3 h4
    simp only [iterReads, readChan, h1, h2, if_pos rfl, if_neg h3, if_neg h4]
    cases hsf : it.stdoutFirst <;> simp

/-- Witness for C6: with both channels ready and nonempty heads, both
lines are emitted in the iteration. -/
theorem c6_channel_order_preserved_witness :
    Ev.out ("a") ∈ (iterReads
      ⟨false, false, true, true, true, false, false, false, false, false⟩
      ["a"] ["b"]).1 ∧
    Ev.err ("b") ∈ (iterReads
      ⟨false, false, true, true, true, false, false, false, false, false⟩
      ["a"] ["b"]).1 :=
  c6_channel_order_preserved.2
    ⟨false, false, true, true, true, false, false, false, false, false⟩
    ("a") ("b") [] [] rfl rfl (by decide) (by decide)

def rf7 : Nat → Bool := fun _ => false

def c7dat : SessionData :=
  { start_time := 0, last_active := 0, container_id := 5, cdp_port := 5,
    no_vnc_port := 5, vnc_port := 5, user_ip := wIp, host_public_ip := "h",
    process := none }

def c7inst : Inst := ⟨[("s1", c7dat)], [(wIp, "s1")]⟩

def c7shared : Shared := ⟨[("s1", c7dat)], [(wIp, "s1")], [5], [], [], 6, 0, 0, "h"⟩

/-- Witness for C7: a session idle 301s (> 300s) is swept at `now = 301`:
one stop invocation, record and owner mapping gone from both stores. -/
theorem c7_reaper_removes_stale_witness :
    ((c7inst.sessions.map Prod.fst).Nodup ∧
     ("s1", c7dat) ∈ c7inst.sessions ∧
     301 - c7dat.last_active > TIMEOUT ∧
     c7dat.container_id ∈ c7shared.containers ∧
     (∀ p ∈ c7inst.sessions,
       p.2.container_id = c7dat.container_id → p.1 = "s1") ∧
     getKV c7inst.ipSessions c7dat.user_ip = some "s1") ∧
    (getKV (cleanup_sweep rf7 c7inst c7shared 301).1.sessions "s1" = none ∧
     getKV (cleanup_sweep rf7 c7inst c7shared 301).2.1.redisSessions "s1" =
       none ∧
     ((cleanup_sweep rf7 c7inst c7shared 301).2.2).count
       (Act.containerStop c7dat.container_id) = 1 ∧
     getKV (cleanup_sweep rf7 c7inst c7shared 301).1.ipSessions
       c7dat.user_ip = none ∧
     getKV (cleanup_sweep rf7 c7inst c7shared 301).2.1.redisIp
       c7dat.user_ip = none) :=
  ⟨⟨by decide, by decide, by decide, by decide, by decide, by decide⟩,
   c7_reaper_removes_stale rf7 c7inst c7shared 301 "s1" c7dat (by decide)
     (by decide) (by decide) (by decide) (by decide) (by decide)⟩

def cxTask : String := "it" ++ String.mk [squo] ++ "s a test"

def cxUrl : String := "http://1.2.3.4:9333"

/-- C10 (refuted by the code): a task text containing a single quote
breaks the single-quoted splice of line 306 — the quote count of the
`bash -c` command becomes odd, bash fails with an unterminated quoted
string, and the worker receives nothing at all: delivery is `none`, not
the serialized payload. -/
theorem c10_single_quote_breaks_delivery :
    squo ∈ (jdumps (preparePayload [("task", cxTask)] cxUrl)).data ∧
    deliveredArgv (jdumps (preparePayload [("task", cxTask)] cxUrl)) = none := by
  decide

/-- C10 (amended): whenever the serialized payload (after `cdp_url` is
added) contains no single quote, and its strings are plain ASCII so
`json.dumps` emits them verbatim, the JSON text reaches the worker
unchanged as its single first argument and `parse_payload_from_argv`
recovers exactly the submitted object, task included. -/
theorem c10_plain_payload_roundtrip (payload : List (String × String))
    (url : String)
    (hq : squo ∉ (jdumps (preparePayload payload url)).data)
    (hplain : ∀ p ∈ preparePayload payload url,
      plainStr p.1 = true ∧ plainStr p.2 = true) :
    deliveredArgv (jdumps (preparePayload payload url)) =
      some ["browsing_agent.py", jdumps (preparePayload payload url)] ∧
    parse_payload_from_argv
        ["browsing_agent.py", jdumps (preparePayload payload url)] =
      preparePayload payload url := by
  have hplainF : plainChar dquo = false := by decide
  have hdq : ∀ p ∈ preparePayload payload url,
      dquo ∉ p.1.data ∧ dquo ∉ p.2.data := by
    intro p hp
    obtain ⟨h1, h2⟩ := hplain p hp
    constructor
    · intro hmem
      have := List.all_eq_true.mp h1 _ hmem
      rw [hplainF] at this
      exact Bool.noConfusion this
    · intro hmem
      have := List.all_eq_true.mp h2 _ hmem
      rw [hplainF] at this
      exact Bool.noConfusion this
  refine ⟨deliveredArgv_noquote _ hq, ?_⟩
  simp [parse_payload_from_argv, jloads_jdumps _ hdq]

def wPayload : List (String × String) := [("task", "hello world")]

def wUrl : String := "http://h:9333"

/-- Witness for C10: the quote-free payload `{"task":"hello world"}` (plus
`cdp_url`) is delivered verbatim and parsed back to the same object. -/
theorem c10_plain_payload_roundtrip_witness :
    (squo ∉ (jdumps (preparePayload wPayload wUrl)).data ∧
     (∀ p ∈ preparePayload wPayload wUrl,
       plainStr p.1 = true ∧ plainStr p.2 = true)) ∧
    (deliveredArgv (jdumps (preparePayload wPayload wUrl)) =
       some ["browsing_agent.py", jdumps (preparePayload wPayload wUrl)] ∧
     parse_payload_from_argv
         ["browsing_agent.py", jdumps (preparePayload wPayload wUrl)] =
       preparePayload wPayload wUrl) :=
  ⟨⟨by decide, by decide⟩,
   c10_plain_payload_roundtrip wPayload wUrl (by decide) (by decide)⟩
